import Mathlib

/-!
Verification of the natural-language specification of
`imdb/parser/http/movieParser.py` against the source.

Strings are modelled as `List Char` (`Str`), and the Python string
primitives used by the source (`replace`, `split`, `find`, `rfind`,
`strip`, `startswith`, `endswith`, `isspace`, whitespace `split()`)
are given executable shallow embeddings that follow CPython semantics:
`replace` and `split` scan left to right for non-overlapping
occurrences of a non-empty pattern, `find`/`rfind` return the first /
last match index, `strip` family removes whitespace at the ends.
Each parser class is embedded as a state record plus one Lean function
per handler method, and a parse is a fold of a handler-dispatch step
over a list of tag events.
-/

abbrev Str := List Char

def chars (s : String) : Str := s.data

/-- Whitespace characters recognized by CPython `str.split()` /
`strip()` / `isspace()` for the byte range the parser deals with. -/
def isWS (c : Char) : Bool :=
  c == ' ' || c == '\t' || c == '\n' || c == '\r' ||
  c == Char.ofNat 11 || c == Char.ofNat 12

/-- Python `s.replace(pat, rep)` for a non-empty `pat`: leftmost
non-overlapping occurrences, the replacement is not rescanned.
(The source never calls `replace` with an empty pattern; for an empty
`pat` this definition is the identity.)  The recursion skips the
matched pattern, so it is made structural on a fuel argument; the
wrapper `pyReplace` supplies fuel equal to the string length, which
the fuel-irrelevance lemma below shows is always enough. -/
def pyReplaceF (pat rep : Str) : Nat → Str → Str
  | _, [] => []
  | 0, l => l
  | fuel + 1, c :: cs =>
    if pat.isPrefixOf (c :: cs) ∧ pat ≠ []
    then rep ++ pyReplaceF pat rep fuel (cs.drop (pat.length - 1))
    else c :: pyReplaceF pat rep fuel cs

def pyReplace (pat rep : Str) (l : Str) : Str :=
  pyReplaceF pat rep l.length l

/-- Python `s.split(sep)` for a non-empty `sep`: leftmost
non-overlapping occurrences, empty pieces kept, `"".split(sep) = [""]`.
(For an empty `sep` this definition returns the whole string;
the source only splits on `"::"`.)  Fueled like `pyReplaceF`. -/
def pySplitF (sep : Str) : Nat → Str → List Str
  | _, [] => [[]]
  | 0, l => [l]
  | fuel + 1, c :: cs =>
    if sep.isPrefixOf (c :: cs) ∧ sep ≠ []
    then [] :: pySplitF sep fuel (cs.drop (sep.length - 1))
    else
      match pySplitF sep fuel cs with
      | [] => [[c]]
      | p :: ps => (c :: p) :: ps

def pySplit (sep : Str) (l : Str) : List Str :=
  pySplitF sep l.length l

/-- Python `s.split()` (no argument): split on runs of whitespace,
empty pieces dropped.  Fueled like `pyReplaceF`. -/
def wsplitF : Nat → Str → List Str
  | _, [] => []
  | 0, _ => []
  | fuel + 1, c :: cs =>
    if isWS c then wsplitF fuel cs
    else (c :: cs.takeWhile (fun x => !isWS x)) ::
         wsplitF fuel (cs.dropWhile (fun x => !isWS x))

def wsplit (l : Str) : List Str :=
  wsplitF l.length l

/-- Python `s.find(sub)`: index of the leftmost occurrence
(`none` for `-1`). -/
def pyFind (sub : Str) : Str → Option Nat
  | [] => if sub = [] then some 0 else none
  | c :: cs =>
    if sub.isPrefixOf (c :: cs) then some 0
    else (pyFind sub cs).map (· + 1)

/-- Python `s.rfind(sub)`: index of the rightmost occurrence
(`none` for `-1`). -/
def pyRFind (sub : Str) : Str → Option Nat
  | [] => if sub = [] then some 0 else none
  | c :: cs =>
    match pyRFind sub cs with
    | some i => some (i + 1)
    | none => if sub.isPrefixOf (c :: cs) then some 0 else none

def lstrip (s : Str) : Str := s.dropWhile isWS

def rstrip (s : Str) : Str := (s.reverse.dropWhile isWS).reverse

/-- Python `s.strip()`. -/
def pstrip (s : Str) : Str := rstrip (lstrip s)

/-- Python `s.isspace()`: nonempty and all whitespace. -/
def pyIsSpace (s : Str) : Bool := !s.isEmpty && s.all isWS

def pyLower (s : Str) : Str := s.map Char.toLower

/-- `strip_amps` (movieParser.py lines 41-50): remove a final `&`
that is followed by nothing or only whitespace, together with the
whitespace before it. -/
def strip_amps (theString : Str) : Str :=
  match pyRFind (chars "&") theString with
  | none => theString
  | some i =>
    let rest := theString.drop (i + 1)
    if rest = [] ∨ pyIsSpace rest = true
    then rstrip (theString.take i)
    else theString

/-- Python `' '.join(s.split())`, the first step of `clear_text`. -/
def squeeze (theString : Str) : Str :=
  List.intercalate (chars " ") (wsplit theString)

/-- `clear_text` (movieParser.py lines 53-61): squeeze whitespace runs
to one space, remove spaces around the `::` separator, drop empty
`::`-separated pieces. -/
def clear_text (theString : Str) : Str :=
  let squeezed := squeeze theString
  let noSpaceSep :=
    pyReplace (chars " ::") (chars "::")
      (pyReplace (chars ":: ") (chars "::") squeezed)
  List.intercalate (chars "::")
    ((pySplit (chars "::") noSpaceSep).filter (fun p => !p.isEmpty))

/-- Modelled from the spec: `ParserBase.re_imdbID` is defined in
`parser.http.utils`, which is not among the sources.  Section 6 of the
spec describes it: "href-embedded identifiers follow a fixed pattern of
a known path prefix followed by a run of decimal digits; extractors
consume the last match found in a given href".  `findall` is modelled
as every maximal decimal-digit run immediately following one of the
known two-letter path prefixes ("nm" for names, "tt" for titles). -/
def reImdbIDFindallF : Nat → Str → List Str
  | _, [] => []
  | _, [_] => []
  | 0, _ => []
  | fuel + 1, a :: b :: rest =>
    if ((a = 'n' ∧ b = 'm') ∨ (a = 't' ∧ b = 't')) ∧
       rest.takeWhile Char.isDigit ≠ []
    then rest.takeWhile Char.isDigit ::
         reImdbIDFindallF fuel (rest.dropWhile Char.isDigit)
    else reImdbIDFindallF fuel (b :: rest)

def reImdbIDFindall (l : Str) : List Str :=
  reImdbIDFindallF l.length l

/-- Person record as built by the movie parser (`imdb.Person.Person`
construction plus the `billingPos` attribute set in `end_tr`). -/
structure MPerson where
  name : Str := []
  currentRole : Str := []
  personID : Str := []
  notes : Str := []
  billingPos : Nat := 0
  deriving DecidableEq

/-- An element of one of the (heterogeneous) Python lists stored in
the movie parser's result dictionary. -/
inductive Item where
  | s (v : Str)
  | p (v : MPerson)
  deriving DecidableEq

/-- A value of the movie parser's result dictionary. -/
inductive MValue where
  | str (v : Str)
  | list (l : List Item)
  deriving DecidableEq

/-- Python truthiness of a result-dictionary value. -/
def mtruthy : MValue → Bool
  | .str v => !v.isEmpty
  | .list l => !l.isEmpty

/-- Python `'%s' %` interpolation of a dictionary value, as used for
the known year in the aka branch of `do_br`.  The `year` key only ever
holds a scalar; for a list value CPython would interpolate the list
repr, which is irrelevant here and modelled as the empty string. -/
def mfmt : MValue → Str
  | .str v => v
  | .list _ => []

/-- Python `dict.get(k)` on the ordered association list model
(keys are unique by construction, so first-match lookup is exact). -/
def dget (d : List (Str × MValue)) (k : Str) : Option MValue :=
  match d with
  | [] => none
  | kv :: rest => if kv.1 == k then some kv.2 else dget rest k

/-- Python `dict[k] = v` on the ordered association list model:
replace the value in place when the key exists, append otherwise. -/
def dset (d : List (Str × MValue)) (k : Str) (v : MValue) :
    List (Str × MValue) :=
  match d with
  | [] => [(k, v)]
  | kv :: rest => if kv.1 == k then (kv.1, v) :: rest else kv :: dset rest k v

/-- Python `dict.setdefault(k, []).append(it)`.  When the key holds a
scalar string CPython would raise `AttributeError` (`append` on a
`str`); no state reached in the theorems below does that, and the
model leaves the dictionary unchanged there. -/
def dappend (d : List (Str × MValue)) (k : Str) (it : Item) :
    List (Str × MValue) :=
  match dget d k with
  | some (MValue.list l) => dset d k (.list (l ++ [it]))
  | some (MValue.str _) => d
  | none => d ++ [(k, MValue.list [it])]

/-- `HTMLMovieParser.append_item` (lines 128-133). -/
def append_item (d : List (Str × MValue)) (sect data : Str) :
    List (Str × MValue) :=
  dappend d (clear_text sect) (Item.s (clear_text data))

/-- `HTMLMovieParser.set_item` (lines 135-139): only string values are
passed through `clear_text`. -/
def set_item (d : List (Str × MValue)) (sect : Str) (v : MValue) :
    List (Str × MValue) :=
  let v := match v with
    | MValue.str s => MValue.str (clear_text s)
    | x => x
  dset d (clear_text sect) v

/-- Session state of `HTMLMovieParser`; the defaults are the values
assigned by `_reset` (lines 84-126), with `mdparse` from `_init`. -/
structure MovieState where
  movie_data : List (Str × MValue) := []
  mdparse : Bool := false
  current_section : Str := []
  is_cast_crew : Bool := false
  is_name : Bool := false
  name : Str := []
  cur_nameID : Str := []
  is_company_cred : Bool := false
  company_data : Str := []
  countries : Bool := false
  is_genres : Bool := false
  is_title : Bool := false
  title : Str := []
  title_short : Str := []
  is_rating : Bool := false
  rating : Str := []
  is_languages : Bool := false
  is_akas : Bool := false
  aka_title : Str := []
  is_movie_status : Bool := false
  movie_status_sect : Str := []
  movie_status_data : Str := []
  is_runtimes : Bool := false
  runtimes : Str := []
  is_mpaa : Bool := false
  mpaa : Str := []
  inbch : Bool := false
  isplotoutline : Bool := false
  plotoutline : Str := []
  merge_next : Bool := false
  counter : Nat := 1
  deriving DecidableEq

/-- External collaborators of `HTMLMovieParser` that are out of scope
per the spec (section 1): the title analyzer `analyze_title` composed
with `unquote` (a black box returning a mapping or failing), and the
`re_episodes` pattern from `imdb.utils` (first match plus the input
with all matches removed, `none` when there is no match).  Both are
parameters of the embedding; every theorem below only exercises states
that never consult them. -/
structure MovieExt where
  az : Str → Option (List (Str × MValue))
  epFindSub : Str → Option (Str × Str)

/-- A `MovieExt` for runs that never reach the title-browse or
episode-count code paths. -/
def noExt : MovieExt := { az := fun _ => none, epFindSub := fun _ => none }

/-- `HTMLMovieParser.start_a` (lines 166-228). -/
def movie_start_a (ext : MovieExt) (s : MovieState) (href : Option Str) :
    MovieState :=
  match href with
  | none => s
  | some olink =>
    let link := pyLower olink
    if (chars "/name").isPrefixOf link then
      let ids := reImdbIDFindall link
      { s with is_name := true,
               cur_nameID := match ids.getLast? with
                             | some i => i
                             | none => s.cur_nameID }
    else if (chars "/list").isPrefixOf link then
      let sect0 := pyReplace (chars "-") (chars " ")
                     (pyReplace (chars "_") (chars " ") (link.drop 6))
      let sect := match pyFind (chars "=") sect0 with
                  | some ind => sect0.take ind
                  | none => sect0
      { s with is_company_cred := true, current_section := sect }
    else if (chars "/glossary").isPrefixOf link then
      { s with is_cast_crew := true,
               current_section := pyReplace (chars "-") (chars " ")
                 (pyReplace (chars "_") (chars " ") (link.drop 12)) }
    else if (chars "/sections/countries").isPrefixOf link then
      { s with countries := true }
    else if (chars "/sections/genres").isPrefixOf link then
      { s with is_genres := true }
    else if (chars "/sections/languages").isPrefixOf link then
      { s with is_languages := true }
    else if (chars "/mpaa").isPrefixOf link then
      { s with is_mpaa := true }
    else if s.isplotoutline then
      let s := { s with isplotoutline := false }
      if s.plotoutline ≠ [] then
        { s with movie_data := set_item s.movie_data (chars "plot outline")
                                 (.str s.plotoutline) }
      else s
    else if (chars "http://pro.imdb.com").isPrefixOf link then
      { s with is_movie_status := false }
    else if (chars "/titlebrowse?").isPrefixOf link ∧
            (dget s.movie_data (chars "title")).isNone then
      match ext.az (olink.drop 13) with
      | some d_title =>
        let md := d_title.foldl (fun md kv => set_item md kv.1 kv.2)
                    s.movie_data
        { s with movie_data := md,
                 title_short := match dget d_title (chars "title") with
                                | some (MValue.str v) => pyLower v
                                | _ => [] }
      | none => s
    else s

/-- The final section key computed inside `end_tr`:
`clear_text` of the section name, with `crewmembers` renamed to
`miscellaneous crew` (lines 252, 257). -/
def sectOf (current_section : Str) : Str :=
  let sect := clear_text current_section
  if sect = chars "crewmembers" then chars "miscellaneous crew" else sect

/-- Python truthiness of `dict.setdefault(sect, []) == []` in `end_tr`
(line 265): the key is missing or holds an empty list. -/
def sectListEmpty (d : List (Str × MValue)) (k : Str) : Bool :=
  match dget d k with
  | none => true
  | some (MValue.list l) => l.isEmpty
  | some (MValue.str _) => false

/-- `HTMLMovieParser.end_tr` (lines 233-274). -/
def movie_end_tr (s : MovieState) : MovieState :=
  let s :=
    if s.is_name ∧ s.current_section ≠ [] then
      let s :=
        if s.is_cast_crew then
          let nm := strip_amps s.name
          let n_split := pySplit (chars "::") nm
          let n := pstrip (n_split.headD [])
          let role0 := pstrip (List.intercalate (chars " ") (n_split.drop 1))
          let (role1, notes0) :=
            match pyFind (chars "(") role0 with
            | some ii =>
              match pyRFind (chars ")") role0 with
              | some ei =>
                (pstrip (pyReplace (chars "  ") (chars " ")
                   (role0.take ii ++ role0.drop (ei + 1))),
                 pstrip ((role0.drop ii).take (ei + 1 - ii)))
              | none => (role0, [])
            | none => (role0, [])
          let sect0 := clear_text s.current_section
          let (role, notes) :=
            if sect0 ≠ chars "cast"
            then ([], role1 ++ (if notes0 ≠ [] then chars " " ++ notes0 else []))
            else (role1, notes0)
          let sect := sectOf s.current_section
          let counter := if sectListEmpty s.movie_data sect then 1 else s.counter
          let p : MPerson :=
            { name := n, currentRole := role, personID := s.cur_nameID,
              notes := notes, billingPos := counter }
          { s with movie_data := dappend s.movie_data sect (Item.p p),
                   counter := counter + 1 }
        else s
      { s with name := [], cur_nameID := [] }
    else s
  { s with movie_status_data := [], movie_status_sect := [], is_name := false }

/-- `HTMLMovieParser.end_td` (lines 278-287). -/
def movie_end_td (s : MovieState) : MovieState :=
  if s.is_movie_status then
    if s.movie_status_sect ≠ [] ∧ s.movie_status_data ≠ [] then
      let sect_name := if (chars "status").isPrefixOf s.movie_status_sect
                       then s.movie_status_sect
                       else chars "status " ++ s.movie_status_sect
      { s with movie_data := set_item s.movie_data sect_name
                               (.str s.movie_status_data) }
    else s
  else if s.is_cast_crew ∧ s.current_section ≠ [] then
    if s.is_name then { s with name := s.name ++ chars "::" } else s
  else s

/-- `HTMLMovieParser.do_br` (lines 289-344). -/
def movie_do_br (ext : MovieExt) (s : MovieState) : MovieState :=
  let s :=
    if s.is_company_cred then
      { s with movie_data := append_item s.movie_data s.current_section
                               (strip_amps s.company_data),
               company_data := [], is_company_cred := false }
    else if s.is_akas ∧ s.aka_title ≠ [] then
      let aka0 := s.aka_title
      let yearv : Option MValue :=
        match dget s.movie_data (chars "title") with
        | some t => if mtruthy t then dget s.movie_data (chars "year") else none
        | none => none
      let aka1 :=
        match yearv with
        | some y =>
          if mtruthy y then
            let ys := mfmt y
            let syear := chars " (" ++ ys ++ chars ") "
            if (pyFind syear aka0).isSome then
              pyReplace syear (chars "(" ++ ys ++ chars ")::") aka0
            else
              let aka' := match pyFind (chars " (") aka0 with
                          | some fsti =>
                            aka0.take fsti ++ chars "::" ++ aka0.drop (fsti + 1)
                          | none => aka0
              pyReplace (chars ")") (chars ")::") aka'
          else aka0
        | none => aka0
      let aka2 := match pyRFind (chars " [") aka1 with
                  | some ind => aka1.take ind ++ chars "::" ++ aka1.drop (ind + 1)
                  | none => aka1
      let aka := pyReplace (chars ")(") (chars ") (")
                   (pyReplace (chars "][") (chars "] [") aka2)
      { s with movie_data := append_item s.movie_data (chars "akas") aka,
               aka_title := [] }
    else if s.is_mpaa ∧ s.mpaa ≠ [] then
      { s with is_mpaa := false,
               movie_data := set_item s.movie_data (chars "mpaa")
                 (.str (pyReplace (chars "MPAA:") [] s.mpaa)) }
    else if s.isplotoutline then
      let s := { s with isplotoutline := false }
      if s.plotoutline ≠ [] then
        { s with movie_data := set_item s.movie_data (chars "plot outline")
                                 (.str s.plotoutline) }
      else s
    else if s.is_runtimes ∧ s.runtimes ≠ [] then
      let s := { s with is_runtimes := false }
      let rt := pyReplace (chars " min") [] s.runtimes
      let (rt, s) :=
        match ext.epFindSub rt with
        | some (ep, subbed) =>
          (subbed, { s with movie_data := set_item s.movie_data
                              (chars "episodes") (.str ep) })
        | none => (rt, s)
      let rl := (pySplit (chars "/") rt).map pstrip
      if rl ≠ [] then
        { s with movie_data := set_item s.movie_data (chars "runtimes")
                                 (.list (rl.map Item.s)) }
      else s
    else s
  if s.mdparse then movie_end_tr s else s

/-- `HTMLMovieParser._handle_data` (lines 412-492). -/
def movie_handle_data (s : MovieState) (data : Str) : MovieState :=
  let sdata := pstrip data
  let sldata := pyLower sdata
  let s :=
    if s.is_cast_crew ∧ s.current_section ≠ [] ∧ s.is_name then
      let data1 := pyReplace (chars " .... ") (chars "::") data
      let (data2, nm) :=
        if sdata ≠ [] ∧ sdata.headD ' ' = '(' then
          (lstrip data1, pstrip s.name ++ chars "::")
        else (data1, s.name)
      { s with name := nm ++ data2 }
    else if s.is_company_cred ∧ s.current_section ≠ [] then
      if sdata = chars "/" then
        { s with movie_data := append_item s.movie_data s.current_section
                                 (strip_amps s.company_data),
                 company_data := [], is_company_cred := false }
      else if s.merge_next then
        { s with company_data := s.company_data ++ data, merge_next := false }
      else
        let s :=
          if s.company_data ≠ [] then
            if data.length > 1 then
              { s with company_data := s.company_data ++ chars "::" }
            else if data ≠ chars " " then { s with merge_next := true }
            else s
          else s
        { s with company_data := s.company_data ++ data }
    else if s.is_akas ∧ sdata ≠ chars ":" then
      { s with aka_title := s.aka_title ++ data }
    else if s.is_runtimes then { s with runtimes := s.runtimes ++ data }
    else if s.is_mpaa then { s with mpaa := s.mpaa ++ data }
    else if s.is_movie_status then
      if s.movie_status_sect = [] then
        { s with movie_status_sect := pyReplace (chars ":") [] sldata }
      else { s with movie_status_data := s.movie_status_data ++ pyLower data }
    else if s.countries then
      { s with movie_data := append_item s.movie_data (chars "countries") data,
               countries := false }
    else if s.is_title then { s with title := s.title ++ data }
    else if s.is_genres then
      { s with movie_data := append_item s.movie_data (chars "genres") data,
               is_genres := false }
    else if s.is_rating then { s with rating := s.rating ++ data }
    else if s.is_languages then
      { s with movie_data := append_item s.movie_data (chars "languages") data,
               is_languages := false }
    else if s.isplotoutline then { s with plotoutline := s.plotoutline ++ data }
    else if s.inbch ∧ (chars "plot outline:").isPrefixOf sldata then
      { s with isplotoutline := true }
    else if (chars "also known as").isPrefixOf sldata then
      { s with is_akas := true }
    else if (chars "runtime:").isPrefixOf sldata then
      { s with is_runtimes := true }
    else if (chars "production notes/status").isPrefixOf sldata then
      { s with is_movie_status := true }
    else s
  if s.mdparse then
    if (chars "cast overview, first billed only").isPrefixOf sldata then
      { s with is_cast_crew := true, current_section := chars "cast" }
    else if (chars "directed by").isPrefixOf sldata then
      { s with is_cast_crew := true, current_section := chars "director" }
    else if (chars "writing credits").isPrefixOf sldata then
      { s with is_cast_crew := true, current_section := chars "writer" }
    else s
  else s

/-- Tag events consumed by the `HTMLMovieParser` handlers embedded
above; attribute lookup (`get_attr_value`, case-insensitive, `none`
when absent) is modelled by carrying the looked-up value. -/
inductive MovieEv where
  | startA (href : Option Str)
  | endTR
  | endTD
  | br
  | data (d : Str)

/-- Dispatch one tag event to the matching `HTMLMovieParser` handler. -/
def movieStep (ext : MovieExt) (s : MovieState) : MovieEv → MovieState
  | .startA href => movie_start_a ext s href
  | .endTR => movie_end_tr s
  | .endTD => movie_end_td s
  | .br => movie_do_br ext s
  | .data d => movie_handle_data s d

/-- Fold the handlers over a list of tag events starting from the
reset state (the spec's `parse`: reset, then handle each event). -/
def movieRun (ext : MovieExt) (evs : List MovieEv) : MovieState :=
  evs.foldl (movieStep ext) {}

/-- `HTMLMovieParser.get_data` (lines 141-143). -/
def movie_get_data (s : MovieState) : List (Str × MValue) := s.movie_data

/-- Python `int(s)` for a decimal literal with optional sign and
surrounding whitespace (`none` for `ValueError`). -/
def pyInt (s : Str) : Option Int :=
  let t := pstrip s
  let (neg, digits) : Bool × Str :=
    match t with
    | '-' :: r => (true, r)
    | '+' :: r => (false, r)
    | r => (false, r)
  if digits ≠ [] ∧ digits.all Char.isDigit then
    let n : Nat := digits.foldl (fun a c => a * 10 + (c.toNat - 48)) 0
    some (if neg then -(n : Int) else (n : Int))
  else none

/-- Python `str(int(s))` (`none` for `ValueError`). -/
def pyIntStr (s : Str) : Option Str :=
  (pyInt s).map (fun n => chars (toString n))

/-- Python `s[-4:]`. -/
def pyLast4 (s : Str) : Str := s.drop (s.length - 4)

/-- Person reference as built by `HTMLAwardsParser.end_a`. -/
structure APerson where
  name : Str := []
  personID : Str := []
  currentRole : Str := []
  deriving DecidableEq

/-- Movie reference as built by `HTMLAwardsParser.end_a`. -/
structure AMovie where
  title : Str := []
  movieID : Str := []
  deriving DecidableEq

/-- A shared-record handle: an index into the parser's
`__person_obj_list` / `__movie_obj_list`.  The Python lists `__to`,
`__for` and `__with` hold object references; aliasing is modelled by
storing the index of the referenced record. -/
inductive ARef where
  | pers (i : Nat)
  | mov (i : Nat)
  deriving DecidableEq

/-- A value of an award record. -/
inductive AwVal where
  | vs (v : Str)
  | refs (l : List ARef)
  deriving DecidableEq

/-- Python truthiness of an award-record value. -/
def awTruthy : AwVal → Bool
  | .vs v => !v.isEmpty
  | .refs l => !l.isEmpty

/-- The dedup step of `HTMLAwardsParser.end_a` (lines 750-754 etc.):
`if p in obj_list: p = obj_list[obj_list.index(p)] else:
obj_list.append(p)`.  Modelled from the spec for the equality test:
`Person.__eq__` / `Movie.__eq__` live in `imdb.Person` / `imdb.Movie`,
which are not among the sources; spec section 4.5 specifies identity
by identifier, so two references are equal when their identifiers are.
Returns the new store and the index of the shared record;
`firstIdx` is the index of the first list element satisfying a
predicate, matching Python `list.index`. -/
def firstIdx {α : Type} (p : α → Bool) : List α → Option Nat
  | [] => none
  | x :: xs => if p x then some 0 else (firstIdx p xs).map (· + 1)

def addByID {α : Type} (idOf : α → Str) (store : List α) (x : α) :
    List α × Nat :=
  match firstIdx (fun q => idOf q == idOf x) store with
  | some i => (store, i)
  | none => (store ++ [x], store.length)

/-- Session state of `HTMLAwardsParser`; defaults are the `_reset`
values (lines 582-614), with `subject` from `_init`.  `__is_small` is
not initialized by `_init`/`_reset` in the source (it first exists
after a `small` tag is seen; before that CPython would raise
`AttributeError` in `start_a`); it is modelled with default `false`
and, like the source, left untouched by reset. -/
structure AwardsState where
  aw_data : List (List (Str × AwVal)) := []
  subject : Str := chars "title"
  is_big : Bool := false
  is_current_assigner : Bool := false
  begin_aw : Bool := false
  in_td : Bool := false
  cur_year : Str := []
  cur_result : Str := []
  cur_notes : Str := []
  cur_category : Str := []
  cur_forto : Str := []
  cur_assigner : Str := []
  cur_award : Str := []
  cur_sect : Str := []
  no : Bool := false
  rowspan : Int := 0
  counter : Int := 1
  limit : Int := 1
  is_tn : Bool := false
  cur_id : Str := []
  t_o_n : Str := []
  toL : List ARef := []
  forL : List ARef := []
  withL : List ARef := []
  begin_to_for : Bool := false
  cur_role : Str := []
  cur_tn : Str := []
  person_obj_list : List APerson := []
  movie_obj_list : List AMovie := []
  is_small : Bool := false
  deriving DecidableEq

/-- `HTMLAwardsParser._reset` (lines 582-614): everything except
`subject` (set in `_init`) and the uninitialized `__is_small` goes
back to its reset value; in particular both dedup lists are emptied. -/
def awReset (s : AwardsState) : AwardsState :=
  { subject := s.subject, is_small := s.is_small }

/-- `HTMLAwardsParser.start_td` (lines 627-640). -/
def aw_start_td (s : AwardsState) (rowspanAttr colspanAttr : Option Str) :
    AwardsState :=
  let s := { s with in_td := true }
  if !s.begin_aw then s
  else
    let rs : Int := match (rowspanAttr.getD (chars "1")) with
      | v => match pyInt v with
             | some n => n
             | none => 1
    let csp : Int := match (colspanAttr.getD (chars "1")) with
      | v => match pyInt v with
             | some n => n
             | none => 1
    let s := { s with rowspan := rs }
    if csp = 4 then { s with no := true } else s

/-- The award record built and filtered by
`HTMLAwardsParser.store_data` (lines 664-677): empty fields are
deleted before the record is appended. -/
def awRecord (s : AwardsState) : List (Str × AwVal) :=
  ([(chars "year", AwVal.vs (pstrip s.cur_year)),
    (chars "result", AwVal.vs (pstrip s.cur_result)),
    (chars "award", AwVal.vs (pstrip s.cur_award)),
    (chars "notes", AwVal.vs (pstrip s.cur_notes)),
    (chars "assigner", AwVal.vs (pstrip s.cur_assigner)),
    (chars "category", AwVal.vs (pstrip s.cur_category)),
    (chars "for", AwVal.refs s.forL),
    (chars "to", AwVal.refs s.toL),
    (chars "with", AwVal.refs s.withL)]).filter (fun kv => awTruthy kv.2)

/-- `HTMLAwardsParser.store_data` (lines 664-684). -/
def aw_store_data (s : AwardsState) : AwardsState :=
  { s with aw_data := s.aw_data ++ [awRecord s],
           cur_notes := [], cur_category := [], cur_forto := [],
           withL := [], toL := [], forL := [], cur_role := [] }

/-- `HTMLAwardsParser.end_td` (lines 642-662). -/
def aw_end_td (s : AwardsState) : AwardsState :=
  if s.no ∨ !s.begin_aw then s
  else if s.cur_sect = chars "year" then { s with cur_sect := chars "res" }
  else if s.cur_sect = chars "res" then
    { s with limit := s.rowspan, counter := 1, cur_sect := chars "award" }
  else if s.cur_sect = chars "award" then { s with cur_sect := chars "cat" }
  else if s.cur_sect = chars "cat" then
    let s := { s with counter := s.counter + 1 }
    let s := aw_store_data s
    let s := { s with begin_to_for := false }
    if s.counter = s.limit + 1 then
      { s with cur_result := [], cur_award := [],
               cur_sect := chars "res", counter := 1 }
    else s
  else s

/-- `HTMLAwardsParser.start_a` (lines 703-736). -/
def aw_start_a (s : AwardsState) (href : Option Str) : AwardsState :=
  match href with
  | none => s
  | some href =>
    if (chars "/Sections/Awards").isPrefixOf href then
      let s :=
        if s.in_td then
          match pyIntStr (pyLast4 href) with
          | some year =>
            { s with cur_sect := chars "year", cur_year := year,
                     begin_aw := true, counter := 1, limit := 1, no := false,
                     cur_result := [], cur_notes := [], cur_category := [],
                     cur_forto := [], cur_award := [],
                     withL := [], toL := [], forL := [] }
          | none => s
        else s
      if s.is_big then { s with is_current_assigner := true, cur_assigner := [] }
      else s
    else if (chars "/name").isPrefixOf href ∨ (chars "/title").isPrefixOf href
    then
      if s.is_small then s
      else
        match (reImdbIDFindall href).getLast? with
        | some tn =>
          { s with cur_id := tn, is_tn := true, cur_tn := [],
                   t_o_n := if (chars "/name").isPrefixOf href
                            then chars "n" else chars "t" }
        | none => s
    else s

/-- `HTMLAwardsParser.end_a` (lines 738-791): reference construction
with per-parse deduplication through the object lists. -/
def aw_end_a (s : AwardsState) : AwardsState :=
  let s := if s.is_current_assigner
           then { s with is_current_assigner := false } else s
  let s :=
    if s.is_tn ∧ s.cur_sect = chars "cat" then
      let s := { s with cur_tn := pstrip s.cur_tn,
                        cur_role := pstrip s.cur_role }
      let s :=
        if s.subject = chars "name" then
          if s.t_o_n = chars "t" then
            let m : AMovie := { title := s.cur_tn, movieID := s.cur_id }
            let si := addByID (fun q => q.movieID) s.movie_obj_list m
            { s with begin_to_for := true, movie_obj_list := si.1,
                     forL := s.forL ++ [ARef.mov si.2] }
          else
            let p : APerson := { name := s.cur_tn, personID := s.cur_id,
                                 currentRole := s.cur_role }
            let si := addByID (fun q => q.personID) s.person_obj_list p
            { s with person_obj_list := si.1,
                     withL := s.withL ++ [ARef.pers si.2] }
        else
          if s.t_o_n = chars "t" then
            let m : AMovie := { title := s.cur_tn, movieID := s.cur_id }
            let si := addByID (fun q => q.movieID) s.movie_obj_list m
            { s with movie_obj_list := si.1,
                     withL := s.withL ++ [ARef.mov si.2] }
          else
            let p : APerson := { name := s.cur_tn, personID := s.cur_id,
                                 currentRole := s.cur_role }
            let si := addByID (fun q => q.personID) s.person_obj_list p
            { s with begin_to_for := true, person_obj_list := si.1,
                     toL := s.toL ++ [ARef.pers si.2] }
      { s with cur_role := [] }
    else s
  { s with is_tn := false }

/-- `HTMLAwardsParser._handle_data` (lines 793-813). -/
def aw_handle_data (s : AwardsState) (data : Str) : AwardsState :=
  let s := if s.is_current_assigner
           then { s with cur_assigner := s.cur_assigner ++ data } else s
  if !s.begin_aw ∨ data = [] ∨ pyIsSpace data ∨ s.no then s
  else
    let sldata := pyLower (pstrip data)
    if s.cur_sect = chars "res" then
      { s with cur_result := s.cur_result ++ data }
    else if s.cur_sect = chars "award" then
      { s with cur_award := s.cur_award ++ data }
    else if s.cur_sect = chars "cat" then
      if s.is_tn then { s with cur_tn := s.cur_tn ++ data }
      else if sldata ≠ chars "for:" ∧ sldata ≠ chars "shared with:" then
        if s.is_small then { s with cur_notes := s.cur_notes ++ data }
        else if s.begin_to_for then { s with cur_role := s.cur_role ++ data }
        else { s with cur_category := s.cur_category ++ data }
      else s
    else s

/-- Tag events consumed by the embedded `HTMLAwardsParser` handlers. -/
inductive AwEv where
  | startTD (rowspan colspan : Option Str)
  | endTD
  | startA (href : Option Str)
  | endA
  | data (d : Str)
  | startBig
  | endBig
  | startSmall
  | endSmall
  | startTH
  | endTable

/-- Dispatch one tag event to the matching `HTMLAwardsParser` handler
(`start_big`/`end_big` lines 621-625, `start_small`/`end_small` lines
697-701, `start_th` line 686-687, `end_table` lines 693-695). -/
def awStep (s : AwardsState) : AwEv → AwardsState
  | .startTD r c => aw_start_td s r c
  | .endTD => aw_end_td s
  | .startA href => aw_start_a s href
  | .endA => aw_end_a s
  | .data d => aw_handle_data s d
  | .startBig => { s with is_big := true }
  | .endBig => { s with is_big := false }
  | .startSmall => { s with is_small := true }
  | .endSmall => { s with is_small := false }
  | .startTH => { s with begin_aw := false }
  | .endTable => { s with begin_aw := false, in_td := false }

/-- Fold the `HTMLAwardsParser` handlers over a list of tag events
starting from the reset state. -/
def awRun (evs : List AwEv) : AwardsState :=
  evs.foldl awStep {}

/-- `HTMLAwardsParser.get_data` (lines 616-619). -/
def aw_get_data (s : AwardsState) :
    List (Str × List (List (Str × AwVal))) :=
  if s.aw_data.isEmpty then [] else [(chars "awards", s.aw_data)]

/-- Python `q.endswith("::")`: the last two characters are colons. -/
def endsCC (q : Str) : Bool :=
  match q.reverse with
  | c1 :: c2 :: _ => c1 == ':' && c2 == ':'
  | _ => false

/-- Python `q[:-2]`. -/
def dropLast2 (q : Str) : Str := (q.reverse.drop 2).reverse

/-- Session state of `HTMLQuotesParser` (`_reset`, lines 1142-1147). -/
structure QuotesState where
  in_quo : Bool := false
  in_quo2 : Bool := false
  quo : List Str := []
  cquo : Str := []
  deriving DecidableEq

/-- `HTMLQuotesParser.start_a` (lines 1166-1169). -/
def q_start_a (s : QuotesState) (name : Option Str) : QuotesState :=
  match name with
  | some n => if (chars "qt").isPrefixOf n then { s with in_quo2 := true }
              else s
  | none => s

/-- `HTMLQuotesParser.do_hr` (lines 1173-1179): strips the quote, one
trailing `::`, and appends. -/
def q_do_hr (s : QuotesState) : QuotesState :=
  if s.in_quo ∧ s.in_quo2 ∧ s.cquo ≠ [] then
    let c := pstrip s.cquo
    let c := if endsCC c then dropLast2 c else c
    { s with quo := s.quo ++ [pstrip c], cquo := [] }
  else s

/-- `HTMLQuotesParser.do_p` (lines 1181-1184). -/
def q_do_p (s : QuotesState) : QuotesState :=
  if s.in_quo ∧ s.in_quo2 then { q_do_hr s with in_quo := false } else s

/-- `HTMLQuotesParser.do_br` (lines 1186-1188): appends one `::` per
line break. -/
def q_do_br (s : QuotesState) : QuotesState :=
  if s.in_quo ∧ s.in_quo2 ∧ s.cquo ≠ [] then
    { s with cquo := pstrip s.cquo ++ chars "::" }
  else s

/-- `HTMLQuotesParser._handle_data` (lines 1190-1195). -/
def q_handle_data (s : QuotesState) (data : Str) : QuotesState :=
  if s.in_quo ∧ s.in_quo2 then
    let data1 := pyReplace (chars "\n") (chars " ") data
    let data2 := if endsCC s.cquo then lstrip data1 else data1
    { s with cquo := s.cquo ++ data2 }
  else s

/-- Tag events consumed by the embedded `HTMLQuotesParser` handlers. -/
inductive QEv where
  | startTD
  | endTD
  | startA (name : Option Str)
  | hr
  | p
  | br
  | data (d : Str)

/-- Dispatch one tag event to the matching `HTMLQuotesParser` handler
(`start_td` lines 1158-1160, `end_td` lines 1162-1164). -/
def qStep (s : QuotesState) : QEv → QuotesState
  | .startTD => { s with in_quo := true }
  | .endTD => { s with in_quo := false, in_quo2 := false }
  | .startA n => q_start_a s n
  | .hr => q_do_hr s
  | .p => q_do_p s
  | .br => q_do_br s
  | .data d => q_handle_data s d

/-- Fold the `HTMLQuotesParser` handlers over a list of tag events
starting from the reset state. -/
def qRun (evs : List QEv) : QuotesState :=
  evs.foldl qStep {}

/-- `HTMLQuotesParser.get_data` (lines 1149-1156): strips one more
trailing `::` from every accumulated quote. -/
def q_get_data (s : QuotesState) : List (Str × List Str) :=
  if s.quo.isEmpty then []
  else [(chars "quotes",
         s.quo.map (fun q => if endsCC q then dropLast2 q else q))]

/-- A value of the DVD parser's per-section dictionary `__cdvd`:
plain strings, Python lists (which `_put_data` may extend with the
single characters of a string, so elements are strings), and the
`sound` sub-dictionary. -/
inductive DVal where
  | vs (v : Str)
  | vl (xs : List Str)
  | snd (m : List (Str × Str))
  deriving DecidableEq

/-- Generic ordered association-list `get`. -/
def aget {β : Type} (d : List (Str × β)) (k : Str) : Option β :=
  match d with
  | [] => none
  | kv :: rest => if kv.1 == k then some kv.2 else aget rest k

/-- Generic ordered association-list `set`: replace in place when the
key exists, append otherwise. -/
def aset {β : Type} (d : List (Str × β)) (k : Str) (v : β) :
    List (Str × β) :=
  match d with
  | [] => [(k, v)]
  | kv :: rest => if kv.1 == k then (kv.1, v) :: rest else kv :: aset rest k v

/-- The non-recursive part of `HTMLDvdParser._put_data`
(lines 1708-1721).  When the `::`-pieces all strip to nothing CPython
would raise `IndexError` on `ss[0]`; no state reached below does that
and the dictionary is left unchanged there.  Note the faithful
modelling of `self.__cdvd[k] += v` after the key was wrapped in a
list: Python list `+=` string extends the list with the single
characters of the string. -/
def put_data_one (d : List (Str × DVal)) (s0 : Str) : List (Str × DVal) :=
  let ss := ((pySplit (chars "::") s0).map pstrip).filter (fun x => !x.isEmpty)
  match ss with
  | [] => d
  | [x] =>
    if (pyFind (chars "read about how we rate dvds") (pyLower x)).isSome then d
    else
      match aget d (chars "misc") with
      | some (DVal.vl xs) => aset d (chars "misc") (DVal.vl (xs ++ [x]))
      | some _ => d
      | none => aset d (chars "misc") (DVal.vl [x])
  | k0 :: rest =>
    let k := pyLower k0
    let v := pyReplace (chars "\n") []
               (List.intercalate (chars " ") rest)
    match aget d k with
    | some (DVal.vs old) =>
      aset d k (DVal.vl ([old] ++ v.map (fun c => [c])))
    | some (DVal.vl xs) =>
      aset d k (DVal.vl (xs ++ v.map (fun c => [c])))
    | some (DVal.snd m) => aset d k (DVal.snd m)
    | none => aset d k (DVal.vs v)

/-- `HTMLDvdParser._put_data` (lines 1699-1721).  The
`color::`/`runtime::` special case recurses; the rebuilt arguments can
contain a fresh `"::-"`/`"min"` pair at most once more, so the
recursion depth never exceeds three and fuel 4 covers every input. -/
def put_data_fuel : Nat → List (Str × DVal) → Str → List (Str × DVal)
  | 0, d, _ => d
  | Nat.succ fuel, d, s0 =>
    let s1 := pstrip s0
    if s1 = [] then d
    else
      match pyFind (chars "::-") s1, pyFind (chars "min") s1 with
      | some dcmi, some mini =>
        let d1 := put_data_fuel fuel d (chars "color::" ++ s1.take dcmi)
        put_data_fuel fuel d1
          (chars "runtime::" ++ (s1.drop (dcmi + 3)).take (mini - (dcmi + 3)))
      | _, _ => put_data_one d s1

def put_data (d : List (Str × DVal)) (s0 : Str) : List (Str × DVal) :=
  put_data_fuel 4 d s0

/-- Session state of `HTMLDvdParser`.  `__dvd` is created by `_init`
(lines 1672-1673), once per instance; every other field is a `_reset`
value (lines 1675-1692). -/
structure DvdState where
  dvd : List (List (Str × DVal)) := []
  cdvd : List (Str × DVal) := []
  indvd : Bool := false
  intitle : Bool := false
  curtitle : Str := []
  binfo : Bool := false
  binfo_txt : Str := []
  inth : Bool := false
  noendb : Bool := false
  finfo : Bool := false
  finfo_txt : Str := []
  inar : Bool := false
  thl : List Str := []
  thmult : Int := 1
  colcount : Int := -1
  coldata : Str := []
  insound : Bool := false
  deriving DecidableEq

/-- `HTMLDvdParser._reset` (lines 1675-1692): note that the
accumulated `__dvd` list is *not* among the fields it clears. -/
def dvdReset (s : DvdState) : DvdState := { dvd := s.dvd }

/-- A freshly constructed `HTMLDvdParser` instance: `_init` sets
`__dvd = []` (the remaining fields first exist after the first
reset; their defaults are the reset values). -/
def dvdInit : DvdState := {}

/-- `HTMLDvdParser.do_hr` (lines 1723-1726): closes one DVD section
and calls `_reset` — which keeps `__dvd`. -/
def dvd_do_hr (s : DvdState) : DvdState :=
  if s.indvd ∧ s.cdvd ≠ [] then
    dvdReset { s with dvd := s.dvd ++ [s.cdvd] }
  else s

/-- `HTMLDvdParser.start_a` (lines 1728-1747). -/
def dvd_start_a (s : DvdState) (name href : Option Str) : DvdState :=
  let s :=
    match name with
    | some n => if n.length > 1 ∧ n.headD ' ' = 'X'
                then { s with indvd := true } else s
    | none => s
  if !s.indvd then s
  else
    let hrefl := (href.map pyLower).getD []
    if href.isSome ∧ (pyFind (chars "sections/dvds/labels") hrefl).isSome then
      { s with binfo_txt := chars "label::", noendb := true }
    else if href.isSome ∧
            (pyFind (chars "sections/dvds/pictureformats") hrefl).isSome then
      { s with binfo_txt := chars "picture format::", noendb := true }
    else if href.isSome ∧
            (pyFind (chars "sections/dvds/regions") hrefl).isSome then
      { s with finfo_txt := chars "region::" }
    else if href.isSome ∧
            (pyFind (chars "sections/dvds/video") hrefl).isSome then
      { s with finfo_txt := chars "video standard::" }
    else if href.isSome ∧
            (pyFind (chars "sections/dvds/packaging") hrefl).isSome then
      { s with finfo_txt := chars "packaging::" }
    else s

/-- `HTMLDvdParser.do_br` (lines 1751-1758). -/
def dvd_do_br (s : DvdState) : DvdState :=
  if s.indvd then
    let s := if s.intitle then { s with curtitle := s.curtitle ++ chars " - " }
             else s
    if s.binfo then
      let s := { s with binfo := false }
      if s.binfo_txt ≠ [] then
        { s with cdvd := put_data s.cdvd s.binfo_txt, binfo_txt := [] }
      else s
    else s
  else s

/-- `HTMLDvdParser.start_h3` / `end_h3` (lines 1814-1821). -/
def dvd_start_h3 (s : DvdState) : DvdState :=
  if s.indvd then { s with intitle := true } else s

def dvd_end_h3 (s : DvdState) : DvdState :=
  if s.indvd then
    { s with intitle := false,
             cdvd := aset s.cdvd (chars "title") (DVal.vs s.curtitle) }
  else s

/-- `HTMLDvdParser._handle_data` (lines 1874-1892). -/
def dvd_handle_data (s : DvdState) (data : Str) : DvdState :=
  if s.indvd then
    let s :=
      if s.inth then
        let dsl := pyLower (pstrip (pyReplace (chars ":") [] data))
        let s := { s with thl := s.thl ++ List.replicate s.thmult.toNat dsl }
        if dsl = chars "sound" then { s with insound := true } else s
      else s
    if s.intitle then { s with curtitle := s.curtitle ++ data }
    else if s.binfo then
      let sdata := lstrip data
      if sdata ≠ [] then { s with binfo_txt := s.binfo_txt ++ sdata } else s
    else if s.finfo then
      let sdata := lstrip data
      if sdata ≠ [] then { s with finfo_txt := s.finfo_txt ++ sdata } else s
    else if s.thl ≠ [] ∧ !s.inth then { s with coldata := s.coldata ++ data }
    else s
  else s

/-- Tag events consumed by the embedded `HTMLDvdParser` handlers. -/
inductive DvdEv where
  | startA (name href : Option Str)
  | startH3
  | endH3
  | hr
  | br
  | data (d : Str)

/-- Dispatch one tag event to the matching `HTMLDvdParser` handler. -/
def dvdStep (s : DvdState) : DvdEv → DvdState
  | .startA n h => dvd_start_a s n h
  | .startH3 => dvd_start_h3 s
  | .endH3 => dvd_end_h3 s
  | .hr => dvd_do_hr s
  | .br => dvd_do_br s
  | .data d => dvd_handle_data s d

/-- `HTMLDvdParser.get_data` (lines 1694-1697). -/
def dvd_get_data (s : DvdState) : List (Str × List (List (Str × DVal))) :=
  if s.dvd.isEmpty then [] else [(chars "dvd", s.dvd)]

/-- Modelled from the spec (section 4.2): `ParserBase.parse` lives in
`parser.http.utils`, which is not among the sources; the spec defines
it as `reset(); for event in tokenize(markup): handle(event);
return get_data()`, with `init()` run once per instance lifetime, not
per parse.  Returns the result mapping and the instance state after
the call. -/
def dvdParse (s : DvdState) (evs : List DvdEv) :
    List (Str × List (List (Str × DVal))) × DvdState :=
  let s1 := evs.foldl dvdStep (dvdReset s)
  (dvd_get_data s1, s1)

/-- The dynamic value of `HTMLGuestsParser._curid`: a string after
`_reset` (line 2206), but the Python list literal `[-1]` after the
assignment in `start_a` (line 2224). -/
inductive CurId where
  | s (v : Str)
  | idx (v : List Int)
  deriving DecidableEq

/-- Python truthiness of `_curid`. -/
def curIdTruthy : CurId → Bool
  | .s v => !v.isEmpty
  | .idx l => !l.isEmpty

/-- Python `str(...)` applied to `_curid` (line 2254): for the list
`[-1]` this is the repr string `"[-1]"`. -/
def pyStrCurId : CurId → Str
  | .s v => v
  | .idx l =>
    '[' :: (List.intercalate (chars ", ") (l.map (fun n => chars (toString n))))
      ++ [']']

/-- Person record as built by `HTMLGuestsParser.end_tr`. -/
structure GPerson where
  name : Str := []
  personID : Str := []
  currentRole : Str := []
  notes : Str := []
  deriving DecidableEq

/-- Session state of `HTMLGuestsParser` (`_reset`, lines 2198-2208). -/
structure GuestsState where
  guests : List (Str × List GPerson) := []
  in_guests : Bool := false
  inh1 : Bool := false
  goth1 : Bool := false
  inname : Bool := false
  curname : Str := []
  curid : CurId := .s []
  inepisode : Bool := false
  curepisode : Str := []
  deriving DecidableEq

/-- Python `guests.setdefault(episode, []).append(p)` (line 2257). -/
def gappend (d : List (Str × List GPerson)) (k : Str) (p : GPerson) :
    List (Str × List GPerson) :=
  match d with
  | [] => [(k, [p])]
  | kv :: rest => if kv.1 == k then (kv.1, kv.2 ++ [p]) :: rest
                  else kv :: gappend rest k p

/-- `HTMLGuestsParser.start_a` (lines 2220-2224): when the href has at
least one identifier match the source assigns the list literal `[-1]`
to `_curid` instead of the last match `cid[-1]`. -/
def g_start_a (s : GuestsState) (href : Option Str) : GuestsState :=
  if s.inname then
    let cid := reImdbIDFindall (href.getD [])
    if cid ≠ [] then { s with curid := CurId.idx [-1] } else s
  else s

/-- `HTMLGuestsParser.start_td` (lines 2264-2271). -/
def g_start_td (s : GuestsState) (colspan : Option Str) : GuestsState :=
  if s.in_guests then
    if colspan = some (chars "3")
    then { s with inepisode := true, curepisode := [] }
    else { s with inname := true }
  else s

/-- `HTMLGuestsParser.end_tr` (lines 2237-2262). -/
def g_end_tr (s : GuestsState) : GuestsState :=
  let s :=
    if s.inname then
      let cep := pstrip (pyReplace (chars "  ") (chars " ")
                   (pyReplace (chars "\n") (chars " ") s.curepisode))
      let cep := if cep = [] then chars "UNKNOWN EPISODE" else cep
      let s := { s with curepisode := cep,
                        curname := pstrip (pyReplace (chars "\n") [] s.curname) }
      if s.curname ≠ [] ∧ curIdTruthy s.curid then
        let name0 := pstrip s.curname
        let (name1, note) :=
          match pyFind (chars "(") name0 with
          | some bni =>
            match pyRFind (chars ")") name0 with
            | some _ => (pstrip (name0.take bni), name0.drop bni)
            | none => (name0, [])
          | none => (name0, [])
        let sn := pySplit (chars " .... ") name1
        let p : GPerson :=
          { name := sn.headD [],
            personID := pyStrCurId s.curid,
            currentRole := pstrip (List.intercalate (chars " ") (sn.drop 1)),
            notes := note }
        { s with guests := gappend s.guests s.curepisode p }
      else s
    else s
  if s.in_guests then
    { s with inname := false, curname := [], curid := .s [],
             inepisode := false }
  else s

/-- `HTMLGuestsParser._handle_data` (lines 2275-2280). -/
def g_handle_data (s : GuestsState) (data : Str) : GuestsState :=
  if s.inh1 ∧ (pyFind (chars "guest appearances") (pyLower data)).isSome then
    { s with goth1 := true }
  else if s.in_guests then
    if s.inname then { s with curname := s.curname ++ data }
    else if s.inepisode then { s with curepisode := s.curepisode ++ data }
    else s
  else s

/-- Tag events consumed by the embedded `HTMLGuestsParser` handlers. -/
inductive GEv where
  | startH1
  | endH1
  | startA (href : Option Str)
  | startTable
  | endTable
  | endTR
  | startTD (colspan : Option Str)
  | data (d : Str)

/-- Dispatch one tag event to the matching `HTMLGuestsParser` handler
(`start_h1`/`end_h1` lines 2214-2218, `start_table` lines 2228-2229,
`end_table` lines 2231-2233). -/
def gStep (s : GuestsState) : GEv → GuestsState
  | .startH1 => { s with inh1 := true }
  | .endH1 => { s with inh1 := false }
  | .startA href => g_start_a s href
  | .startTable => if s.goth1 then { s with in_guests := true } else s
  | .endTable => { s with goth1 := false, in_guests := false }
  | .endTR => g_end_tr s
  | .startTD c => g_start_td s c
  | .data d => g_handle_data s d

/-- Fold the `HTMLGuestsParser` handlers over a list of tag events
starting from the reset state. -/
def gRun (evs : List GEv) : GuestsState :=
  evs.foldl gStep {}

/-- `HTMLGuestsParser.get_data` (lines 2210-2212). -/
def g_get_data (s : GuestsState) : List (Str × List (Str × List GPerson)) :=
  if s.guests.isEmpty then [] else [(chars "guests", s.guests)]

/-- The list currently stored at a section key of the movie result
dictionary (empty when the key is absent). -/
def sectItems (d : List (Str × MValue)) (k : Str) : List Item :=
  match dget d k with
  | some (MValue.list l) => l
  | _ => []

/-- The section key does not hold a scalar string (on a scalar string
`list.append` in the source would raise `AttributeError`). -/
def sectListOk (d : List (Str × MValue)) (k : Str) : Bool :=
  match dget d k with
  | some (MValue.str _) => false
  | _ => true

/-- The `Person` reference built by `HTMLAwardsParser.end_a` from the
captured link text, identifier and role (lines 757-760 / 780-783). -/
def capturePerson (s : AwardsState) : APerson :=
  { name := pstrip s.cur_tn, personID := s.cur_id,
    currentRole := pstrip s.cur_role }

/-- Repeated `addByID` insertions, keeping only the store. -/
def addAllByID {α : Type} (idOf : α → Str) (store : List α)
    (ps : List α) : List α :=
  ps.foldl (fun st q => (addByID idOf st q).1) store

/-- Length of the trailing run of `':'` characters of a string. -/
def trailColons (q : Str) : Nat :=
  (q.reverse.takeWhile (fun c => c == ':')).length

/-- State of the combined-details parser right before the `br` event
of the spec's aka example: the primary title and year are known, the
akas section is active and the raw aka text has been accumulated. -/
def c1State : MovieState :=
  { movie_data := [(chars "title", MValue.str (chars "Die Hard")),
                   (chars "year", MValue.str (chars "1988"))],
    is_akas := true,
    aka_title := chars "Die Hard (1988) (USA) (TV title) [US]" }

/-- A DVD page with one complete DVD section (an anchor named `X1`
opens the section, an `h3` carries the title, `hr` closes it). -/
def c2DvdEvs : List DvdEv :=
  [.startA (some (chars "X1")) none, .startH3, .data (chars "Title One"),
   .endH3, .hr]

/-- A guest-appearances page: the `h1` announces the section, the
table holds one row with a name link and a name. -/
def c3GuestEvs : List GEv :=
  [.startH1, .data (chars "Guest Appearances list"), .endH1, .startTable,
   .startTD none, .startA (some (chars "/name/nm0000001/")),
   .data (chars "Dana"), .endTR]

/-- A combined-details page whose MPAA line carries no text beyond the
`MPAA:` tag itself. -/
def c4MpaaEvs : List MovieEv :=
  [.startA (some (chars "/mpaa")), .data (chars "MPAA:"), .br]

/-- An awards table in the real layout: the year cell carries the
link, the result and award-name cells carry `rowspan="3"`, and three
rows carry one category cell each. -/
def c5GroupEvs : List AwEv :=
  [.startTD none none, .startA (some (chars "/Sections/Awards/2003")),
   .endA, .endTD,
   .startTD (some (chars "3")) none, .data (chars "Won"), .endTD,
   .startTD (some (chars "3")) none, .data (chars "Oscar"), .endTD,
   .startTD none none, .data (chars "Best Actor"), .endTD,
   .startTD none none, .data (chars "Best Picture"), .endTD,
   .startTD none none, .data (chars "Best Song"), .endTD]

/-- The same awards table but with `rowspan="3"` carried only by the
award-name cell, as the claim words it: the result cell has no
rowspan attribute. -/
def c5AwardOnlyEvs : List AwEv :=
  [.startTD none none, .startA (some (chars "/Sections/Awards/2003")),
   .endA, .endTD,
   .startTD none none, .data (chars "Won"), .endTD,
   .startTD (some (chars "3")) none, .data (chars "Oscar"), .endTD,
   .startTD none none, .data (chars "Best Actor"), .endTD,
   .startTD none none, .data (chars "Best Picture"), .endTD,
   .startTD none none, .data (chars "Best Song"), .endTD]

/-- A combined-details page with three credit sections in a row:
cast (one entry), director (one entry), then cast again (one entry).
The third person is the first entry of the newly begun cast
section. -/
def c6SectionEvs : List MovieEv :=
  [.startA (some (chars "/Glossary/C#cast")),
   .startA (some (chars "/name/nm0000001/")),
   .data (chars "Actor A"), .endTR,
   .startA (some (chars "/Glossary/D#director")),
   .startA (some (chars "/name/nm0000002/")),
   .data (chars "Dir B"), .endTR,
   .startA (some (chars "/Glossary/C#cast")),
   .startA (some (chars "/name/nm0000003/")),
   .data (chars "Actor C"), .endTR]

/-- A cast-section state about to close its first table row. -/
def c6WitState : MovieState :=
  { is_name := true, is_cast_crew := true,
    current_section := chars "cast", name := chars "Actor A",
    cur_nameID := chars "0000001" }

/-- An awards-category state in which a name link has just been
captured (used to instantiate the identity theorem). -/
def c7WitState : AwardsState :=
  { begin_aw := true, cur_sect := chars "cat", is_tn := true,
    cur_id := chars "0000001", cur_tn := chars "John Smith",
    t_o_n := chars "n" }

/-- A quotes page whose single quote is followed by three consecutive
`br` line breaks before the closing `hr`. -/
def c10QuoteEvs : List QEv :=
  [.startTD, .startA (some (chars "qt0")), .data (chars "q"),
   .br, .br, .br, .hr]

/-- C1 (counterexample): at a `br` event in the akas section with
known title "Die Hard" and year 1988, the aka text
"Die Hard (1988) (USA) (TV title) [US]" does not append the claim's
expected string "Die Hard::(1988)::(USA) (TV title)::[US]": the
`' (1988) '` → `'(1988)::'` replacement consumes the space before the
year and inserts no `::` between the title and the year marker. -/
theorem C1_aka_example_counterexample :
    dget (movie_do_br noExt c1State).movie_data (chars "akas") ≠
      some (MValue.list
        [Item.s (chars "Die Hard::(1988)::(USA) (TV title)::[US]")]) := by
  decide

/-- C1 (amended): with known title "Die Hard" and year 1988, the aka
text "Die Hard (1988) (USA) (TV title) [US]" appends exactly the
string "Die Hard(1988)::(USA) (TV title)::[US]" to the akas list. -/
theorem C1_aka_example_amended :
    dget (movie_do_br noExt c1State).movie_data (chars "akas") =
      some (MValue.list
        [Item.s (chars "Die Hard(1988)::(USA) (TV title)::[US]")]) := by
  decide

/-- C2: the reset invariant fails for `HTMLDvdParser`.  Its `__dvd`
accumulator is created by `_init` (once per instance) and `_reset`
never clears it, so after parsing a DVD page (a) `get_data()` right
after a reset still returns the accumulated, non-empty result, unlike
a newly constructed instance, and (b) a second `parse` of an empty
page returns the first parse's result instead of the empty mapping a
fresh instance returns. -/
theorem C2_dvd_reset_leak :
    dvd_get_data (dvdReset (dvdParse dvdInit c2DvdEvs).2) ≠
      dvd_get_data dvdInit ∧
    (dvdParse (dvdParse dvdInit c2DvdEvs).2 []).1 ≠ (dvdParse dvdInit []).1 ∧
    (dvdParse (dvdParse dvdInit c2DvdEvs).2 []).1 =
      [(chars "dvd", [[(chars "title", DVal.vs (chars "Title One"))]])] ∧
    (dvdParse dvdInit []).1 = [] := by
  refine ⟨by decide, by decide, by decide, by decide⟩

/-- C3: in `HTMLGuestsParser.start_a` the source stores the list
literal `[-1]` instead of the last identifier match `cid[-1]`, so the
`Person` built for the row carries the degenerate `personID` string
`"[-1]"` rather than the digit run `"0000001"` found in the href. -/
theorem C3_guest_personID_degenerate :
    g_get_data (gRun c3GuestEvs) =
      [(chars "guests", [(chars "UNKNOWN EPISODE",
         [{ name := chars "Dana", personID := chars "[-1]",
            currentRole := [], notes := [] }])])] ∧
    (reImdbIDFindall (chars "/name/nm0000001/")).getLast? =
      some (chars "0000001") ∧
    chars "[-1]" ≠ chars "0000001" := by
  decide

/-- C4 (counterexample): the omit-if-empty contract does not hold for
every extractor and input: when the buffered MPAA text is exactly
`"MPAA:"`, `HTMLMovieParser.do_br` emits the key `mpaa` mapped to the
empty string. -/
theorem C4_empty_mpaa_counterexample :
    dget (movie_get_data (movieRun noExt c4MpaaEvs)) (chars "mpaa") =
      some (MValue.str []) := by
  decide

/-- C5 (counterexample): with `rowspan=3` carried by the award-name
cell only (the claim's wording), the parser produces a single award
record, not three: the group size is taken from the `rowspan` value
current when the result cell closes. -/
theorem C5_rowspan_counterexample :
    (awRun c5AwardOnlyEvs).aw_data.length = 1 ∧
    (awRun c5AwardOnlyEvs).aw_data.length ≠ 3 := by
  decide

/-- C5 (amended): when `rowspan=3` is carried by the result cell (in
the real layout the year, result and award cells share the rowspan),
exactly 3 award records are produced, sharing the same year, result
and award-name triple with 3 distinct per-row categories, after which
the state machine goes back to read a new result. -/
theorem C5_rowspan_grouping_amended :
    (awRun c5GroupEvs).aw_data =
      [[(chars "year", AwVal.vs (chars "2003")),
        (chars "result", AwVal.vs (chars "Won")),
        (chars "award", AwVal.vs (chars "Oscar")),
        (chars "category", AwVal.vs (chars "Best Actor"))],
       [(chars "year", AwVal.vs (chars "2003")),
        (chars "result", AwVal.vs (chars "Won")),
        (chars "award", AwVal.vs (chars "Oscar")),
        (chars "category", AwVal.vs (chars "Best Picture"))],
       [(chars "year", AwVal.vs (chars "2003")),
        (chars "result", AwVal.vs (chars "Won")),
        (chars "award", AwVal.vs (chars "Oscar")),
        (chars "category", AwVal.vs (chars "Best Song"))]] ∧
    (awRun c5GroupEvs).cur_sect = chars "res" := by
  decide

/-- C6 (counterexample): the billing counter does not restart when a
new contiguous section begins with a name already used earlier.  After
cast (one entry), director (one entry) and cast again, the first entry
of the re-begun cast section carries billingPos 2, not 1. -/
theorem C6_billing_counterexample :
    dget (movieRun noExt c6SectionEvs).movie_data (chars "cast") =
      some (MValue.list
        [Item.p { name := chars "Actor A", currentRole := [],
                  personID := chars "0000001", notes := [], billingPos := 1 },
         Item.p { name := chars "Actor C", currentRole := [],
                  personID := chars "0000003", notes := [],
                  billingPos := 2 }]) ∧
    (2 : Nat) ≠ 1 := by
  decide

/-- C8 (counterexample): `clear_text` is not idempotent.  On
`"a : :: : b"` one application yields `"a :: b"` (the space-stripping
replacements merge the colon runs and the empty-piece filter rebuilds
a `" :: "` with spaces), and a second application yields `"a::b"`. -/
theorem C8_clear_text_not_idempotent :
    clear_text (clear_text (chars "a : :: : b")) ≠
      clear_text (chars "a : :: : b") ∧
    clear_text (chars "a : :: : b") = chars "a :: b" ∧
    clear_text (chars "a :: b") = chars "a::b" := by
  decide

/-- C10 (counterexample): a quote followed by three consecutive `br`
line breaks accumulates three `::` markers; `do_hr` strips one and
`get_data` strips one more, so the returned quote still ends with
`::`. -/
theorem C10_quote_trailing_sep_counterexample :
    q_get_data (qRun c10QuoteEvs) = [(chars "quotes", [chars "q::"])] ∧
    endsCC (chars "q::") = true := by
  decide

/-- C4 (amended): the omit-if-empty contract does hold for the award
records of `HTMLAwardsParser`: `store_data` deletes every empty field
before appending the record, so no field of a stored award record is
empty; the contract fails for `HTMLMovieParser`'s `mpaa` entry (see
the counterexample). -/
theorem C4_award_fields_nonempty (s : AwardsState) (kv : Str × AwVal)
    (h : kv ∈ awRecord s) :
    awTruthy kv.2 = true ∧
    (aw_store_data s).aw_data = s.aw_data ++ [awRecord s] := by
  exact ⟨(List.mem_filter.mp h).2, rfl⟩

/-- Witness for `C4_award_fields_nonempty` at a concrete state and
record field. -/
theorem C4_award_fields_nonempty_witness :
    awTruthy (AwVal.vs (chars "1999")) = true ∧
    (aw_store_data { cur_year := chars "1999" }).aw_data =
      ({ cur_year := chars "1999" } : AwardsState).aw_data ++
        [awRecord { cur_year := chars "1999" }] :=
  C4_award_fields_nonempty { cur_year := chars "1999" }
    (chars "year", AwVal.vs (chars "1999")) (by decide)

theorem dget_dset_self (d : List (Str × MValue)) (k : Str) (v : MValue) :
    dget (dset d k v) k = some v := by
  induction d with
  | nil => simp [dget, dset]
  | cons kv rest ih =>
    by_cases h : kv.1 == k
    · simp [dget, dset, h]
    · simp only [dset, h]
      simp only [Bool.false_eq_true, if_false]
      simp [dget, h, ih]

theorem dget_append_single (d : List (Str × MValue)) (k : Str) (v : MValue)
    (h : dget d k = none) : dget (d ++ [(k, v)]) k = some v := by
  induction d with
  | nil => simp [dget]
  | cons kv rest ih =>
    by_cases hk : kv.1 == k
    · simp [dget, hk] at h
    · simp only [dget, hk] at h
      simp only [Bool.false_eq_true, if_false] at h
      simp [dget, hk, ih h]

theorem sectItems_dappend (d : List (Str × MValue)) (k : Str) (it : Item)
    (hok : sectListOk d k = true) :
    sectItems (dappend d k it) k = sectItems d k ++ [it] := by
  unfold sectListOk at hok
  unfold sectItems dappend
  cases h : dget d k with
  | none => simp [h, dget_append_single d k _ h]
  | some v =>
    cases v with
    | str w => rw [h] at hok; simp at hok
    | list l => simp [h, dget_dset_self]

theorem movie_end_tr_spec (s : MovieState)
    (hn : s.is_name = true) (hcs : s.current_section ≠ [])
    (hcc : s.is_cast_crew = true) :
    ∃ p : MPerson,
      (movie_end_tr s).movie_data =
        dappend s.movie_data (sectOf s.current_section) (Item.p p) ∧
      p.billingPos = (if sectListEmpty s.movie_data (sectOf s.current_section)
                      then 1 else s.counter) ∧
      (movie_end_tr s).counter = p.billingPos + 1 := by
  unfold movie_end_tr
  rw [if_pos (show s.is_name = true ∧ s.current_section ≠ [] from ⟨hn, hcs⟩)]
  rw [if_pos hcc]
  exact ⟨_, rfl, rfl, rfl⟩

/-- C6 (amended): in `end_tr` of a cast/crew section whose key holds a
list (or is absent), the appended person's billing position is the
length of the section list plus one — its 1-based rank — provided the
running counter equals that value (the invariant that holds as long as
no section name is re-entered; the counterexample shows a re-entered
name breaks it), and the counter advances past it; when the section
list is still empty the first entry gets billing position 1
unconditionally. -/
theorem C6_billing_position_amended (s : MovieState)
    (hn : s.is_name = true) (hcs : s.current_section ≠ [])
    (hcc : s.is_cast_crew = true)
    (hok : sectListOk s.movie_data (sectOf s.current_section) = true) :
    (s.counter = (sectItems s.movie_data (sectOf s.current_section)).length + 1 →
      ∃ p : MPerson,
        sectItems (movie_end_tr s).movie_data (sectOf s.current_section) =
          sectItems s.movie_data (sectOf s.current_section) ++ [Item.p p] ∧
        p.billingPos =
          (sectItems s.movie_data (sectOf s.current_section)).length + 1 ∧
        (movie_end_tr s).counter =
          (sectItems s.movie_data (sectOf s.current_section)).length + 2) ∧
    (sectItems s.movie_data (sectOf s.current_section) = [] →
      ∃ p : MPerson,
        sectItems (movie_end_tr s).movie_data (sectOf s.current_section) =
          [Item.p p] ∧
        p.billingPos = 1) := by
  obtain ⟨p, hmd, hbp, hct⟩ := movie_end_tr_spec s hn hcs hcc
  have hempty : sectListEmpty s.movie_data (sectOf s.current_section) =
      (sectItems s.movie_data (sectOf s.current_section)).isEmpty := by
    unfold sectListEmpty sectItems sectListOk at *
    cases h : dget s.movie_data (sectOf s.current_section) with
    | none => simp
    | some v =>
      cases v with
      | str w => rw [h] at hok; simp at hok
      | list l => simp
  constructor
  · intro hcount
    refine ⟨p, ?_, ?_, ?_⟩
    · rw [hmd]; exact sectItems_dappend _ _ _ hok
    · rw [hbp, hempty]
      cases h : (sectItems s.movie_data (sectOf s.current_section)).isEmpty
      · simpa using hcount
      · simp only [if_pos rfl]
        simp only [List.isEmpty_iff] at h
        simp [h]
    · rw [hct, hbp, hempty]
      cases h : (sectItems s.movie_data (sectOf s.current_section)).isEmpty
      · simp only [Bool.false_eq_true, if_false]
        omega
      · simp only [if_pos rfl]
        simp only [List.isEmpty_iff] at h
        simp [h]
  · intro hnil
    refine ⟨p, ?_, ?_⟩
    · rw [hmd, sectItems_dappend _ _ _ hok, hnil]
      rfl
    · rw [hbp, hempty, hnil]
      simp

/-- Witness for `C6_billing_position_amended` at a concrete
cast-section state. -/
theorem C6_billing_position_witness :
    (c6WitState.counter =
        (sectItems c6WitState.movie_data
          (sectOf c6WitState.current_section)).length + 1 →
      ∃ p : MPerson,
        sectItems (movie_end_tr c6WitState).movie_data
            (sectOf c6WitState.current_section) =
          sectItems c6WitState.movie_data
              (sectOf c6WitState.current_section) ++ [Item.p p] ∧
        p.billingPos =
          (sectItems c6WitState.movie_data
            (sectOf c6WitState.current_section)).length + 1 ∧
        (movie_end_tr c6WitState).counter =
          (sectItems c6WitState.movie_data
            (sectOf c6WitState.current_section)).length + 2) ∧
    (sectItems c6WitState.movie_data (sectOf c6WitState.current_section) =
        [] →
      ∃ p : MPerson,
        sectItems (movie_end_tr c6WitState).movie_data
            (sectOf c6WitState.current_section) = [Item.p p] ∧
        p.billingPos = 1) :=
  C6_billing_position_amended c6WitState (by decide) (by decide) (by decide)
    (by decide)


theorem firstIdx_cons {α : Type} (p : α → Bool) (x : α) (xs : List α) :
    firstIdx p (x :: xs) =
      if p x then some 0 else (firstIdx p xs).map (· + 1) := rfl

theorem firstIdx_lt {α : Type} (p : α → Bool) (xs : List α) (i : Nat)
    (h : firstIdx p xs = some i) : i < xs.length := by
  induction xs generalizing i with
  | nil => simp [firstIdx] at h
  | cons x xs ih =>
    rw [firstIdx_cons] at h
    by_cases hx : p x
    · rw [if_pos hx] at h
      cases h
      simp
    · rw [if_neg hx] at h
      obtain ⟨j, hj, rfl⟩ := Option.map_eq_some'.mp h
      have := ih j hj
      simp only [List.length_cons]
      omega

theorem firstIdx_append_some {α : Type} (p : α → Bool) (xs ys : List α)
    (i : Nat) (h : firstIdx p xs = some i) :
    firstIdx p (xs ++ ys) = some i := by
  induction xs generalizing i with
  | nil => simp [firstIdx] at h
  | cons x xs ih =>
    rw [firstIdx_cons] at h
    rw [List.cons_append, firstIdx_cons]
    by_cases hx : p x
    · rw [if_pos hx] at h ⊢
      exact h
    · rw [if_neg hx] at h ⊢
      obtain ⟨j, hj, rfl⟩ := Option.map_eq_some'.mp h
      rw [ih j hj]
      rfl

theorem firstIdx_none_append {α : Type} (p : α → Bool) (xs ys : List α)
    (h : firstIdx p xs = none) :
    firstIdx p (xs ++ ys) = (firstIdx p ys).map (· + xs.length) := by
  induction xs with
  | nil => simp
  | cons x xs ih =>
    rw [firstIdx_cons] at h
    by_cases hx : p x
    · rw [if_pos hx] at h
      cases h
    · rw [if_neg hx] at h
      have hxs : firstIdx p xs = none := Option.map_eq_none.mp h
      rw [List.cons_append, firstIdx_cons, if_neg hx, ih hxs]
      cases firstIdx p ys with
      | none => rfl
      | some j =>
        show some (j + (xs.length + 1)) = some (j + xs.length + 1)
        rw [Nat.add_assoc]

theorem addByID_extends {α : Type} (idOf : α → Str) (store : List α)
    (x : α) : ∃ t, (addByID idOf store x).1 = store ++ t := by
  unfold addByID
  cases h : firstIdx (fun q => idOf q == idOf x) store
  · exact ⟨[x], rfl⟩
  · exact ⟨[], by simp⟩

theorem addAllByID_extends {α : Type} (idOf : α → Str) (store : List α)
    (ps : List α) : ∃ t, addAllByID idOf store ps = store ++ t := by
  induction ps generalizing store with
  | nil => exact ⟨[], by simp [addAllByID]⟩
  | cons q qs ih =>
    obtain ⟨t1, ht1⟩ := addByID_extends idOf store q
    obtain ⟨t2, ht2⟩ := ih (addByID idOf store q).1
    refine ⟨t1 ++ t2, ?_⟩
    unfold addAllByID at ht2 ⊢
    simp only [List.foldl_cons]
    rw [ht2, ht1, List.append_assoc]

/-- C7: within one parse call, two reference-bearing links sharing one
identifier resolve to the identical shared record.  First conjunct:
at the store level, inserting a reference, then arbitrarily many other
references, then a second reference with the same identifier yields
the same index into the object list, and the record at that index is
unchanged, so enrichment carried by the shared record is visible
through both occurrences.  Second conjunct: `end_a` on a captured name
link (title subject) appends exactly such a shared-record handle and
updates the object list through the dedup step.  Third conjunct:
`_reset` empties both dedup lists, so no sharing crosses parse
calls. -/
theorem C7_identity_sharing {α : Type} (idOf : α → Str)
    (store : List α) (x1 x2 : α) (mid : List α)
    (hid : idOf x1 = idOf x2) :
    ((addByID idOf (addAllByID idOf (addByID idOf store x1).1 mid) x2).2 =
       (addByID idOf store x1).2 ∧
     (addByID idOf (addAllByID idOf (addByID idOf store x1).1 mid) x2).1[
         (addByID idOf store x1).2]? =
       (addByID idOf store x1).1[(addByID idOf store x1).2]? ∧
     ((addByID idOf store x1).1[(addByID idOf store x1).2]?).isSome =
       true) ∧
    (∀ s : AwardsState, s.is_tn = true → s.cur_sect = chars "cat" →
      s.subject ≠ chars "name" → s.t_o_n ≠ chars "t" →
      (aw_end_a s).toL = s.toL ++
        [ARef.pers (addByID (fun q => q.personID) s.person_obj_list
                      (capturePerson s)).2] ∧
      (aw_end_a s).person_obj_list =
        (addByID (fun q => q.personID) s.person_obj_list
          (capturePerson s)).1) ∧
    (∀ u : AwardsState, (awReset u).person_obj_list = [] ∧
      (awReset u).movie_obj_list = []) := by
  refine ⟨?_, ?_, fun u => ⟨rfl, rfl⟩⟩
  · have hpred : (fun q => idOf q == idOf x2) =
        (fun q => idOf q == idOf x1) := by
      funext q; rw [hid]
    cases h1 : firstIdx (fun q => idOf q == idOf x1) store with
    | some i =>
      have hlt : i < store.length := firstIdx_lt _ _ _ h1
      have hst1 : addByID idOf store x1 = (store, i) := by
        unfold addByID; rw [h1]
      have hfst : (addByID idOf store x1).1 = store := by rw [hst1]
      have hsnd : (addByID idOf store x1).2 = i := by rw [hst1]
      obtain ⟨t, ht⟩ := addAllByID_extends idOf store mid
      rw [hfst, hsnd]
      have h2 : firstIdx (fun q => idOf q == idOf x2)
          (addAllByID idOf store mid) = some i := by
        rw [hpred, ht]
        exact firstIdx_append_some _ _ _ _ h1
      have hadd2 : addByID idOf (addAllByID idOf store mid) x2 =
          (addAllByID idOf store mid, i) := by
        unfold addByID; rw [h2]
      have ha1 : (addByID idOf (addAllByID idOf store mid) x2).1 =
          addAllByID idOf store mid := by rw [hadd2]
      have ha2 : (addByID idOf (addAllByID idOf store mid) x2).2 = i := by
        rw [hadd2]
      rw [ha1, ha2, ht]
      refine ⟨rfl, List.getElem?_append_left hlt, ?_⟩
      rw [List.getElem?_eq_getElem hlt]
      rfl
    | none =>
      have hst1 : addByID idOf store x1 = (store ++ [x1], store.length) := by
        unfold addByID; rw [h1]
      have hfst : (addByID idOf store x1).1 = store ++ [x1] := by rw [hst1]
      have hsnd : (addByID idOf store x1).2 = store.length := by rw [hst1]
      obtain ⟨t, ht⟩ := addAllByID_extends idOf (store ++ [x1]) mid
      rw [hfst, hsnd]
      have h2 : firstIdx (fun q => idOf q == idOf x2)
          (addAllByID idOf (store ++ [x1]) mid) = some store.length := by
        rw [hpred, ht, List.append_assoc, firstIdx_none_append _ _ _ h1,
          List.singleton_append, firstIdx_cons]
        simp
      have hadd2 : addByID idOf (addAllByID idOf (store ++ [x1]) mid) x2 =
          (addAllByID idOf (store ++ [x1]) mid, store.length) := by
        unfold addByID; rw [h2]
      have ha1 : (addByID idOf (addAllByID idOf (store ++ [x1]) mid) x2).1 =
          addAllByID idOf (store ++ [x1]) mid := by rw [hadd2]
      have ha2 : (addByID idOf (addAllByID idOf (store ++ [x1]) mid) x2).2 =
          store.length := by rw [hadd2]
      have hlt : store.length < (store ++ [x1]).length := by simp
      rw [ha1, ha2, ht]
      refine ⟨rfl, List.getElem?_append_left hlt, ?_⟩
      rw [List.getElem?_eq_getElem hlt]
      rfl
  · intro s htn hcat hsub hton
    by_cases hca : s.is_current_assigner <;>
      simp [aw_end_a, hca, htn, hcat, hsub, hton, capturePerson]

/-- Witness for `C7_identity_sharing`: two person references with
identifier "0000001", separated by an unrelated insertion. -/
theorem C7_identity_sharing_witness :
    ((addByID (fun q => APerson.personID q)
        (addAllByID (fun q => APerson.personID q)
          (addByID (fun q => APerson.personID q) []
            { name := chars "John Smith",
              personID := chars "0000001" }).1
          [{ name := chars "Other", personID := chars "0000002" }])
        { name := chars "J. Smith", personID := chars "0000001",
          currentRole := chars "as Him" }).2 =
       (addByID (fun q => APerson.personID q) []
         { name := chars "John Smith", personID := chars "0000001" }).2 ∧
     (addByID (fun q => APerson.personID q)
        (addAllByID (fun q => APerson.personID q)
          (addByID (fun q => APerson.personID q) []
            { name := chars "John Smith",
              personID := chars "0000001" }).1
          [{ name := chars "Other", personID := chars "0000002" }])
        { name := chars "J. Smith", personID := chars "0000001",
          currentRole := chars "as Him" }).1[
         (addByID (fun q => APerson.personID q) []
           { name := chars "John Smith",
             personID := chars "0000001" }).2]? =
       (addByID (fun q => APerson.personID q) []
         { name := chars "John Smith", personID := chars "0000001" }).1[
         (addByID (fun q => APerson.personID q) []
           { name := chars "John Smith",
             personID := chars "0000001" }).2]? ∧
     ((addByID (fun q => APerson.personID q) []
         { name := chars "John Smith", personID := chars "0000001" }).1[
         (addByID (fun q => APerson.personID q) []
           { name := chars "John Smith",
             personID := chars "0000001" }).2]?).isSome = true) ∧
    (∀ s : AwardsState, s.is_tn = true → s.cur_sect = chars "cat" →
      s.subject ≠ chars "name" → s.t_o_n ≠ chars "t" →
      (aw_end_a s).toL = s.toL ++
        [ARef.pers (addByID (fun q => q.personID) s.person_obj_list
                      (capturePerson s)).2] ∧
      (aw_end_a s).person_obj_list =
        (addByID (fun q => q.personID) s.person_obj_list
          (capturePerson s)).1) ∧
    (∀ u : AwardsState, (awReset u).person_obj_list = [] ∧
      (awReset u).movie_obj_list = []) :=
  C7_identity_sharing (fun q => APerson.personID q) []
    { name := chars "John Smith", personID := chars "0000001" }
    { name := chars "J. Smith", personID := chars "0000001",
      currentRole := chars "as Him" }
    [{ name := chars "Other", personID := chars "0000002" }]
    (by decide)

theorem quote_strip_clean (q : Str) (h : trailColons q ≤ 3) :
    endsCC (if endsCC q then dropLast2 q else q) = false := by
  by_cases hq : endsCC q = true
  · rw [if_pos hq]
    rcases hr : q.reverse with _ | ⟨c1, _ | ⟨c2, r⟩⟩
    · unfold endsCC at hq; rw [hr] at hq; simp at hq
    · unfold endsCC at hq; rw [hr] at hq; simp at hq
    · unfold endsCC at hq
      rw [hr] at hq
      simp only [Bool.and_eq_true, beq_iff_eq] at hq
      obtain ⟨hc1, hc2⟩ := hq
      subst hc1; subst hc2
      unfold trailColons at h
      rw [hr] at h
      simp only [List.takeWhile_cons, beq_self_eq_true, if_pos,
        List.length_cons] at h
      have hr2 : (r.takeWhile (fun c => c == ':')).length ≤ 1 := by omega
      unfold endsCC dropLast2
      rw [hr]
      simp only [List.drop_succ_cons, List.drop_zero, List.reverse_reverse]
      rcases r with _ | ⟨d1, _ | ⟨d2, r2⟩⟩
      · rfl
      · rfl
      · by_cases hd1 : d1 = ':'
        · by_cases hd2 : d2 = ':'
          · subst hd1; subst hd2
            simp [List.takeWhile_cons] at hr2
          · simp [hd2]
        · simp [hd1]
  · rw [if_neg (by simpa using hq)]
    simpa using hq

/-- C10 (amended): `get_data` strips one trailing `::` from each
accumulated quote after `do_hr` already stripped one, so every quote
whose stored buffer ends in at most three consecutive colons is
returned without a trailing `::`; buffers with four or more trailing
colons — three or more consecutive `br` line breaks — defeat the two
strips (see the counterexample). -/
theorem C10_quote_trailing_sep_amended (s : QuotesState)
    (h : ∀ q ∈ s.quo, trailColons q ≤ 3) :
    ∀ kv ∈ q_get_data s, ∀ q' ∈ kv.2, endsCC q' = false := by
  intro kv hkv q' hq'
  unfold q_get_data at hkv
  by_cases he : s.quo.isEmpty
  · simp [he] at hkv
  · simp only [he, Bool.false_eq_true, if_false, List.mem_singleton] at hkv
    subst hkv
    simp only [List.mem_map] at hq'
    obtain ⟨q, hq, rfl⟩ := hq'
    exact quote_strip_clean q (h q hq)

/-- Witness for `C10_quote_trailing_sep_amended` at a concrete state
with a single clean quote. -/
theorem C10_quote_trailing_sep_witness : endsCC (chars "a") = false :=
  C10_quote_trailing_sep_amended { quo := [chars "a"] } (by decide)
    (chars "quotes", [chars "a"]) (by decide) (chars "a") (by decide)

theorem pyRFind_none (a : Char) (s : Str)
    (h : ∀ i (hi : i < s.length), s.get ⟨i, hi⟩ ≠ a) :
    pyRFind [a] s = none := by
  induction s with
  | nil => simp [pyRFind]
  | cons c cs ih =>
    have hcs : ∀ i (hi : i < cs.length), cs.get ⟨i, hi⟩ ≠ a := by
      intro i hi
      exact h (i + 1) (by simpa using Nat.succ_lt_succ hi)
    have hc : c ≠ a := h 0 (by simp)
    unfold pyRFind
    rw [ih hcs]
    simp [List.isPrefixOf, hc]
    intro hca
    exact absurd hca.symm hc

theorem pyRFind_last (a : Char) (s : Str) (i : Nat) (hi : i < s.length)
    (ha : s.get ⟨i, hi⟩ = a)
    (hlast : ∀ j (hj : j < s.length), i < j → s.get ⟨j, hj⟩ ≠ a) :
    pyRFind [a] s = some i := by
  induction s generalizing i with
  | nil => simp at hi
  | cons c cs ih =>
    cases i with
    | zero =>
      have hcs : ∀ k (hk : k < cs.length), cs.get ⟨k, hk⟩ ≠ a := by
        intro k hk
        exact hlast (k + 1) (by simpa using Nat.succ_lt_succ hk)
          (Nat.succ_pos k)
      unfold pyRFind
      rw [pyRFind_none a cs hcs]
      have hc : c = a := ha
      simp [List.isPrefixOf, hc]
    | succ n =>
      have hn : n < cs.length := by simpa using Nat.lt_of_succ_lt_succ hi
      have ha2 : cs.get ⟨n, hn⟩ = a := ha
      have hlast2 : ∀ j (hj : j < cs.length), n < j → cs.get ⟨j, hj⟩ ≠ a := by
        intro j hj hnj
        exact hlast (j + 1) (by simpa using Nat.succ_lt_succ hj)
          (Nat.succ_lt_succ hnj)
      unfold pyRFind
      rw [ih n hn ha2 hlast2]

/-- C9: `strip_amps` behaves exactly as stated.  When the string has
no `&` it is returned unchanged; when the last `&` (position `i`, no
`&` after it) is followed only by whitespace the result is the string
truncated before that `&` with trailing whitespace removed, and when
something non-whitespace follows it the string is returned unchanged.
The spec's two examples are included. -/
theorem C9_strip_amps_spec (s : Str) :
    ((∀ i (hi : i < s.length), s.get ⟨i, hi⟩ ≠ '&') → strip_amps s = s) ∧
    (∀ i (hi : i < s.length), s.get ⟨i, hi⟩ = '&' →
      (∀ j (hj : j < s.length), i < j → s.get ⟨j, hj⟩ ≠ '&') →
      (((∀ j (hj : j < s.length), i < j → isWS (s.get ⟨j, hj⟩) = true) →
          strip_amps s = rstrip (s.take i)) ∧
       ((∃ j, ∃ hj : j < s.length, i < j ∧ isWS (s.get ⟨j, hj⟩) = false) →
          strip_amps s = s))) ∧
    strip_amps (chars "written by) & ") = chars "written by)" ∧
    strip_amps (chars "A & B") = chars "A & B" := by
  refine ⟨?_, ?_, by decide, by decide⟩
  · intro h
    unfold strip_amps
    rw [show chars "&" = ['&'] from rfl, pyRFind_none '&' s h]
  · intro i hi ha hlast
    have hfind : pyRFind ['&'] s = some i := pyRFind_last '&' s i hi ha hlast
    constructor
    · intro hws
      unfold strip_amps
      rw [show chars "&" = ['&'] from rfl, hfind]
      dsimp only
      have hcond : s.drop (i + 1) = [] ∨ pyIsSpace (s.drop (i + 1)) = true := by
        by_cases hnil : s.drop (i + 1) = []
        · exact Or.inl hnil
        · right
          unfold pyIsSpace
          rw [Bool.and_eq_true]
          refine ⟨by simpa using hnil, ?_⟩
          rw [List.all_eq_true]
          intro c hc
          obtain ⟨⟨k, hk⟩, hck⟩ := List.mem_iff_get.mp hc
          have hik : i + 1 + k < s.length := by
            simp only [List.length_drop] at hk; omega
          rw [← hck, show (s.drop (i + 1)).get ⟨k, hk⟩ =
            s.get ⟨i + 1 + k, hik⟩ from (List.get_drop s hik).symm]
          exact hws (i + 1 + k) hik (by omega)
      rw [if_pos hcond]
    · rintro ⟨j, hj, hij, hnw⟩
      obtain ⟨k, rfl⟩ : ∃ k, j = i + 1 + k := ⟨j - (i + 1), by omega⟩
      unfold strip_amps
      rw [show chars "&" = ['&'] from rfl, hfind]
      dsimp only
      have hcond :
          ¬(s.drop (i + 1) = [] ∨ pyIsSpace (s.drop (i + 1)) = true) := by
        rintro (hnil | hsp)
        · have : (s.drop (i + 1)).length = 0 := by rw [hnil]; rfl
          simp only [List.length_drop] at this
          omega
        · unfold pyIsSpace at hsp
          rw [Bool.and_eq_true, List.all_eq_true] at hsp
          have hk : k < (s.drop (i + 1)).length := by
            simp only [List.length_drop]; omega
          have hmem : s.get ⟨i + 1 + k, hj⟩ ∈ s.drop (i + 1) := by
            rw [List.mem_iff_get]
            exact ⟨⟨k, hk⟩, (List.get_drop s hj).symm ▸ rfl⟩
          have := hsp.2 _ hmem
          rw [hnw] at this
          cases this
      rw [if_neg hcond]

/-- Witness for `C9_strip_amps_spec`: the truncating branch at
`"x& "` (last `&` at index 1, followed by one space). -/
theorem C9_strip_amps_witness :
    strip_amps (chars "x& ") = rstrip ((chars "x& ").take 1) :=
  ((C9_strip_amps_spec (chars "x& ")).2.1 1 (by decide) (by decide)
    (by decide)).1 (by decide)

theorem wsplitF_fuel : ∀ (f g : Nat) (l : Str), l.length ≤ f →
    l.length ≤ g → wsplitF f l = wsplitF g l := by
  intro f
  induction f with
  | zero =>
    intro g l hf hg
    have : l = [] := List.length_eq_zero.mp (Nat.le_zero.mp hf)
    subst this
    cases g <;> rfl
  | succ f ih =>
    intro g l hf hg
    cases l with
    | nil => cases g <;> rfl
    | cons c cs =>
      cases g with
      | zero => simp at hg
      | succ g =>
        have hcf : cs.length ≤ f := by simpa using hf
        have hcg : cs.length ≤ g := by simpa using hg
        have hdw : (cs.dropWhile (fun x => !isWS x)).length ≤ cs.length :=
          (List.dropWhile_sublist _).length_le
        show (if isWS c then wsplitF f cs
              else (c :: cs.takeWhile (fun x => !isWS x)) ::
                wsplitF f (cs.dropWhile (fun x => !isWS x))) =
             (if isWS c then wsplitF g cs
              else (c :: cs.takeWhile (fun x => !isWS x)) ::
                wsplitF g (cs.dropWhile (fun x => !isWS x)))
        rw [ih g cs hcf hcg,
          ih g _ (Nat.le_trans hdw hcf) (Nat.le_trans hdw hcg)]

theorem wsplit_cons (c : Char) (cs : Str) :
    wsplit (c :: cs) =
      if isWS c then wsplit cs
      else (c :: cs.takeWhile (fun x => !isWS x)) ::
        wsplit (cs.dropWhile (fun x => !isWS x)) := by
  show (if isWS c then wsplitF cs.length cs
        else (c :: cs.takeWhile (fun x => !isWS x)) ::
          wsplitF cs.length (cs.dropWhile (fun x => !isWS x))) = _
  rw [wsplitF_fuel cs.length (cs.dropWhile (fun x => !isWS x)).length _
    (List.dropWhile_sublist _).length_le (Nat.le_refl _)]
  rfl

theorem takeWhile_all (f : Char → Bool) (xs : Str)
    (h : ∀ c ∈ xs, f c = true) : xs.takeWhile f = xs := by
  induction xs with
  | nil => rfl
  | cons x xs ih =>
    rw [List.takeWhile_cons, if_pos (h x (List.mem_cons_self x xs))]
    rw [ih (fun c hc => h c (List.mem_cons_of_mem x hc))]

theorem dropWhile_all (f : Char → Bool) (xs : Str)
    (h : ∀ c ∈ xs, f c = true) : xs.dropWhile f = [] := by
  induction xs with
  | nil => rfl
  | cons x xs ih =>
    rw [List.dropWhile_cons, if_pos (h x (List.mem_cons_self x xs))]
    exact ih (fun c hc => h c (List.mem_cons_of_mem x hc))

theorem takeWhile_all_append (f : Char → Bool) (xs : Str) (y : Char)
    (zs : Str) (h : ∀ c ∈ xs, f c = true) (hy : f y = false) :
    (xs ++ y :: zs).takeWhile f = xs := by
  induction xs with
  | nil => simp [List.takeWhile_cons, hy]
  | cons x xs ih =>
    rw [List.cons_append, List.takeWhile_cons,
      if_pos (h x (List.mem_cons_self x xs)),
      ih (fun c hc => h c (List.mem_cons_of_mem x hc))]

theorem dropWhile_all_append (f : Char → Bool) (xs : Str) (y : Char)
    (zs : Str) (h : ∀ c ∈ xs, f c = true) (hy : f y = false) :
    (xs ++ y :: zs).dropWhile f = y :: zs := by
  induction xs with
  | nil => simp [List.dropWhile_cons, hy]
  | cons x xs ih =>
    rw [List.cons_append, List.dropWhile_cons,
      if_pos (h x (List.mem_cons_self x xs)),
      ih (fun c hc => h c (List.mem_cons_of_mem x hc))]

theorem wsplit_pieces_aux : ∀ (n : Nat) (l : Str), l.length ≤ n →
    ∀ p ∈ wsplit l, p ≠ [] ∧ ∀ c ∈ p, isWS c = false ∧ c ∈ l := by
  intro n
  induction n with
  | zero =>
    intro l h
    have : l = [] := List.length_eq_zero.mp (Nat.le_zero.mp h)
    subst this
    intro p hp
    simp [wsplit, wsplitF] at hp
  | succ n ih =>
    intro l h p hp
    cases l with
    | nil => simp [wsplit, wsplitF] at hp
    | cons c cs =>
      have hcs : cs.length ≤ n := by simpa using h
      rw [wsplit_cons] at hp
      by_cases hc : isWS c
      · rw [if_pos hc] at hp
        obtain ⟨hne, hall⟩ := ih cs hcs p hp
        exact ⟨hne, fun d hd => ⟨(hall d hd).1,
          List.mem_cons_of_mem c (hall d hd).2⟩⟩
      · rw [if_neg hc] at hp
        rcases List.mem_cons.mp hp with hph | hpt
        · subst hph
          refine ⟨by simp, ?_⟩
          intro d hd
          rcases List.mem_cons.mp hd with hdc | hdt
          · subst hdc
            exact ⟨by simpa using hc, List.mem_cons_self _ _⟩
          · have hfd := List.mem_takeWhile_imp hdt
            have hdcs : d ∈ cs := (List.takeWhile_sublist _).subset hdt
            exact ⟨by simpa using hfd, List.mem_cons_of_mem c hdcs⟩
        · have hdwlen : (cs.dropWhile (fun x => !isWS x)).length ≤ n :=
            Nat.le_trans (List.dropWhile_sublist _).length_le hcs
          obtain ⟨hne, hall⟩ := ih _ hdwlen p hpt
          refine ⟨hne, fun d hd => ⟨(hall d hd).1, ?_⟩⟩
          have : d ∈ cs := (List.dropWhile_sublist _).subset (hall d hd).2
          exact List.mem_cons_of_mem c this

theorem intercalate_single (s x : Str) : List.intercalate s [x] = x := by
  simp [List.intercalate]

theorem intercalate_cons2 (s x y : Str) (zs : List Str) :
    List.intercalate s (x :: y :: zs) =
      x ++ s ++ List.intercalate s (y :: zs) := by
  simp [List.intercalate, List.intersperse]

theorem mem_intercalate_space (ps : List Str) (c : Char)
    (h : c ∈ List.intercalate (chars " ") ps) :
    c = ' ' ∨ ∃ p ∈ ps, c ∈ p := by
  induction ps with
  | nil => simp [List.intercalate] at h
  | cons p ps ih =>
    cases ps with
    | nil =>
      rw [intercalate_single] at h
      exact Or.inr ⟨p, List.mem_cons_self _ _, h⟩
    | cons q qs =>
      rw [intercalate_cons2] at h
      rcases List.mem_append.mp h with h1 | h2
      · rcases List.mem_append.mp h1 with h3 | h4
        · exact Or.inr ⟨p, List.mem_cons_self _ _, h3⟩
        · left
          rw [show chars " " = [' '] from rfl] at h4
          simpa using h4
      · rcases ih h2 with h5 | ⟨r, hr, hcr⟩
        · exact Or.inl h5
        · exact Or.inr ⟨r, List.mem_cons_of_mem p hr, hcr⟩

theorem wsplit_intercalate (ps : List Str)
    (h : ∀ p ∈ ps, p ≠ [] ∧ ∀ c ∈ p, isWS c = false) :
    wsplit (List.intercalate (chars " ") ps) = ps := by
  induction ps with
  | nil => rfl
  | cons p ps ih =>
    obtain ⟨hne, hall⟩ := h p (List.mem_cons_self _ _)
    cases ps with
    | nil =>
      rw [intercalate_single]
      cases p with
      | nil => exact absurd rfl hne
      | cons c cs =>
        rw [wsplit_cons, if_neg (by simpa using hall c (List.mem_cons_self _ _))]
        have hcs : ∀ d ∈ cs, (fun x => !isWS x) d = true := by
          intro d hd
          simpa using hall d (List.mem_cons_of_mem c hd)
        rw [takeWhile_all _ cs hcs, dropWhile_all _ cs hcs]
        rfl
    | cons q qs =>
      rw [intercalate_cons2]
      cases p with
      | nil => exact absurd rfl hne
      | cons c cs =>
        have hcs : ∀ d ∈ cs, (fun x => !isWS x) d = true := by
          intro d hd
          simpa using hall d (List.mem_cons_of_mem c hd)
        have hsp : (fun x => !isWS x) ' ' = false := by decide
        rw [List.cons_append, List.cons_append, wsplit_cons,
          if_neg (by simpa using hall c (List.mem_cons_self _ _))]
        rw [show cs ++ chars " " ++ List.intercalate (chars " ") (q :: qs) =
          cs ++ ' ' :: List.intercalate (chars " ") (q :: qs) by
            rw [show chars " " = [' '] from rfl, List.append_assoc]
            rfl]
        rw [takeWhile_all_append _ cs ' ' _ hcs hsp,
          dropWhile_all_append _ cs ' ' _ hcs hsp]
        rw [wsplit_cons, if_pos (by decide)]
        rw [ih (fun r hr => h r (List.mem_cons_of_mem (c :: cs) hr))]

theorem squeeze_idem (l : Str) : squeeze (squeeze l) = squeeze l := by
  unfold squeeze
  rw [wsplit_intercalate (wsplit l) (fun p hp =>
    ⟨(wsplit_pieces_aux l.length l (Nat.le_refl _) p hp).1,
     fun c hc =>
       ((wsplit_pieces_aux l.length l (Nat.le_refl _) p hp).2 c hc).1⟩)]

theorem pyReplace_not_mem (a : Char) (pat rep l : Str)
    (hpat : a ∈ pat) (hl : a ∉ l) : pyReplace pat rep l = l := by
  induction l with
  | nil => rfl
  | cons c cs ih =>
    have hnp : ¬(pat.isPrefixOf (c :: cs) = true ∧ pat ≠ []) := by
      rintro ⟨hp, _⟩
      exact hl ((List.isPrefixOf_iff_prefix.mp hp).subset hpat)
    show (if pat.isPrefixOf (c :: cs) ∧ pat ≠ []
          then rep ++ pyReplaceF pat rep cs.length (cs.drop (pat.length - 1))
          else c :: pyReplaceF pat rep cs.length cs) = c :: cs
    rw [if_neg hnp]
    exact congrArg (c :: ·) (ih (fun hm => hl (List.mem_cons_of_mem c hm)))

theorem pySplit_not_mem (a : Char) (sep l : Str)
    (hsep : a ∈ sep) (hl : a ∉ l) : pySplit sep l = [l] := by
  induction l with
  | nil => rfl
  | cons c cs ih =>
    have hnp : ¬(sep.isPrefixOf (c :: cs) = true ∧ sep ≠ []) := by
      rintro ⟨hp, _⟩
      exact hl ((List.isPrefixOf_iff_prefix.mp hp).subset hsep)
    show (if sep.isPrefixOf (c :: cs) ∧ sep ≠ []
          then [] :: pySplitF sep cs.length (cs.drop (sep.length - 1))
          else match pySplitF sep cs.length cs with
               | [] => [[c]]
               | p :: ps => (c :: p) :: ps) = [c :: cs]
    rw [if_neg hnp]
    have hcs : pySplitF sep cs.length cs = [cs] :=
      ih (fun hm => hl (List.mem_cons_of_mem c hm))
    rw [hcs]

theorem squeeze_not_mem (l : Str) (h : ':' ∉ l) : ':' ∉ squeeze l := by
  intro hc
  rcases mem_intercalate_space (wsplit l) ':' hc with h1 | ⟨p, hp, hcp⟩
  · simp at h1
  · exact h (((wsplit_pieces_aux l.length l (Nat.le_refl _) p hp).2 ':'
      hcp).2)

theorem clear_text_no_colon (l : Str) (h : ':' ∉ l) :
    clear_text l = squeeze l := by
  unfold clear_text
  dsimp only
  have hs := squeeze_not_mem l h
  rw [pyReplace_not_mem ':' (chars ":: ") (chars "::") _ (by decide) hs]
  rw [pyReplace_not_mem ':' (chars " ::") (chars "::") _ (by decide) hs]
  rw [pySplit_not_mem ':' (chars "::") _ (by decide) hs]
  cases hsl : squeeze l with
  | nil => rfl
  | cons c cs =>
    rw [show ([c :: cs].filter (fun p => !p.isEmpty)) = [c :: cs] from rfl]
    exact intercalate_single _ _

/-- C8 (amended): `clear_text` is idempotent on strings containing no
`':'` character, where it reduces to whitespace squeezing; the spec's
collapse example `"a   b::  c" → "a b::c"` holds and is a fixed point.
(Unrestricted idempotence fails: see the counterexample, where a space
next to a colon run survives one pass but not two.) -/
theorem C8_clear_text_idempotent_amended (s : Str) (h : ':' ∉ s) :
    clear_text (clear_text s) = clear_text s ∧
    clear_text (clear_text (chars "a   b::  c")) =
      clear_text (chars "a   b::  c") ∧
    clear_text (chars "a   b::  c") = chars "a b::c" := by
  refine ⟨?_, by decide, by decide⟩
  rw [clear_text_no_colon s h,
    clear_text_no_colon (squeeze s) (squeeze_not_mem s h), squeeze_idem]

/-- Witness for `C8_clear_text_idempotent_amended` at a colon-free
string. -/
theorem C8_clear_text_idempotent_witness :
    clear_text (clear_text (chars "a  b")) = clear_text (chars "a  b") ∧
    clear_text (clear_text (chars "a   b::  c")) =
      clear_text (chars "a   b::  c") ∧
    clear_text (chars "a   b::  c") = chars "a b::c" :=
  C8_clear_text_idempotent_amended (chars "a  b") (by decide)
